import Mathlib

/-!
# Verification of the salva contact-detection and viscosity core

Shallow embedding of the repository core:
* src/geometry/contacts.rs : Contact, ParticlesContacts, compute_contacts
* src/solver/viscosity/artificial_viscosity.rs : ArtificialViscosity::solve

The generic scalar N : RealField is embedded as ℚ (an ordered field with
decidable arithmetic); Vector<N> is embedded as a 2-dimensional vector Vec2
(the crate selects the dimension with a cargo feature; the code itself is
dimension-uniform, nothing verified here depends on the dimension).
Rust Vec<T> becomes List T; indexing uses List.getD, and in-place updates
List.set, with the in-bounds situations tracked in the theorem hypotheses.
The spatial hash grid HGrid is not part of the provided sources, only its
call sites are; it is modelled from the spec (each such definition carries a
doc comment starting with the words Modelled from the spec).
-/

/-- 2-dimensional vector over ℚ, embedding Vector<N> of the crate. -/
structure Vec2 where
  x : ℚ
  y : ℚ
deriving DecidableEq, Repr

namespace Vec2

/-- The zero vector, embedding Vector::zeros(). -/
def zero : Vec2 := ⟨0, 0⟩

/-- Componentwise addition. -/
def add (a b : Vec2) : Vec2 := ⟨a.x + b.x, a.y + b.y⟩

/-- Componentwise subtraction. -/
def sub (a b : Vec2) : Vec2 := ⟨a.x - b.x, a.y - b.y⟩

/-- Scalar multiplication, embedding vector * scalar. -/
def smul (q : ℚ) (a : Vec2) : Vec2 := ⟨q * a.x, q * a.y⟩

/-- Dot product. -/
def dot (a b : Vec2) : ℚ := a.x * b.x + a.y * b.y

/-- Squared norm, embedding norm_squared(). -/
def normSq (a : Vec2) : ℚ := a.dot a

instance : Add Vec2 := ⟨Vec2.add⟩
instance : Sub Vec2 := ⟨Vec2.sub⟩
instance : Zero Vec2 := ⟨Vec2.zero⟩

theorem add_def (a b : Vec2) : a + b = ⟨a.x + b.x, a.y + b.y⟩ := rfl

theorem sub_def (a b : Vec2) : a - b = ⟨a.x - b.x, a.y - b.y⟩ := rfl

theorem zero_def : (0 : Vec2) = ⟨0, 0⟩ := rfl

protected theorem add_assoc (a b c : Vec2) : a + b + c = a + (b + c) := by
  simp [add_def, add_assoc]

protected theorem add_comm (a b : Vec2) : a + b = b + a := by
  simp [add_def]; constructor <;> ring

protected theorem zero_add (a : Vec2) : 0 + a = a := by
  cases a; simp [add_def, zero_def]

protected theorem add_zero (a : Vec2) : a + 0 = a := by
  cases a; simp [add_def, zero_def]

instance : AddCommMonoid Vec2 where
  add_assoc := Vec2.add_assoc
  add_comm := Vec2.add_comm
  zero_add := Vec2.zero_add
  add_zero := Vec2.add_zero
  nsmul := nsmulRec

end Vec2

/-- Squared distance between two points, embedding na::distance_squared. -/
def distSq (a b : Vec2) : ℚ := (a - b).normSq

/-- Contact record, embedding struct Contact<N> of src/geometry/contacts.rs. -/
structure Contact where
  i : ℕ
  i_model : ℕ
  j : ℕ
  j_model : ℕ
  weight : ℚ
  gradient : Vec2
deriving DecidableEq, Repr

/-- Per-particle adjacency store, embedding struct ParticlesContacts<N>:
a flat contact array plus one half-open range (start, stop) per particle. -/
structure ParticlesContacts where
  contacts : List Contact
  contact_ranges : List (ℕ × ℕ)
deriving DecidableEq, Repr

namespace ParticlesContacts

/-- Embeds ParticlesContacts::new(). -/
def new : ParticlesContacts := ⟨[], []⟩

instance : Inhabited ParticlesContacts := ⟨new⟩

/-- Embeds ParticlesContacts::particle_contacts(i):
the sub-slice of the flat array delimited by contact_ranges[i]. -/
def particle_contacts (pc : ParticlesContacts) (i : ℕ) : List Contact :=
  let r := pc.contact_ranges.getD i (0, 0)
  (pc.contacts.drop r.1).take (r.2 - r.1)

end ParticlesContacts

/-- Fluid particle set (structure-of-arrays), embedding the fields of
Fluid<N> that the verified code reads. -/
structure Fluid where
  positions : List Vec2
  velocities : List Vec2
  accelerations : List Vec2
  volumes : List ℚ
  density0 : ℚ
deriving DecidableEq, Repr

/-- Embeds Fluid::num_particles(). -/
def Fluid.num_particles (f : Fluid) : ℕ := f.positions.length

instance : Inhabited Fluid := ⟨⟨[], [], [], [], 0⟩⟩

/-- Boundary particle set, embedding the fields of Boundary<N> that the
verified code reads. -/
structure Boundary where
  positions : List Vec2
deriving DecidableEq, Repr

/-- Embeds Boundary::num_particles(). -/
def Boundary.num_particles (b : Boundary) : ℕ := b.positions.length

instance : Inhabited Boundary := ⟨⟨[]⟩⟩

/-!
## Spatial hash grid (modelled from the spec, section 4.1)
-/

/-- Grid payload (model_id, particle_id, is_boundary), matching the tuple the
contact builder inserts. -/
abbrev Payload := ℕ × ℕ × Bool

/-- Integer cell coordinate of the 2-dimensional grid. -/
abbrev Cell := ℤ × ℤ

/-- Modelled from the spec: struct HGrid (src/geometry/hgrid.rs is not among
the provided sources; only its call sites in compute_contacts are). The grid
is a cell size plus the entries in insertion order; every operation below is
derived from the spec contract of section 4.1. -/
structure HGrid where
  cell_size : ℚ
  entries : List (Vec2 × Payload)
deriving DecidableEq, Repr

/-- Modelled from the spec: the cell containing a point, for a uniform grid
with the given cell size (componentwise floor of point / cell_size). -/
def cellOf (cell_size : ℚ) (p : Vec2) : Cell :=
  (⌊p.x / cell_size⌋, ⌊p.y / cell_size⌋)

namespace HGrid

/-- Modelled from the spec: HGrid::new(cell_size). -/
def new (cell_size : ℚ) : HGrid := ⟨cell_size, []⟩

/-- Modelled from the spec: HGrid::insert(point, payload) assigns the payload
to the cell containing the point. -/
def insert (g : HGrid) (point : Vec2) (pay : Payload) : HGrid :=
  ⟨g.cell_size, g.entries ++ [(point, pay)]⟩

/-- The non-empty cell coordinates, in order of first insertion (the spec
fixes no iteration order; this model uses a deterministic one). -/
def keys (g : HGrid) : List Cell :=
  g.entries.foldl
    (fun ks e => if cellOf g.cell_size e.1 ∈ ks then ks else ks ++ [cellOf g.cell_size e.1])
    []

/-- The payloads bucketed in a given cell, in insertion order. -/
def cellParticles (g : HGrid) (c : Cell) : List Payload :=
  (g.entries.filter (fun e => cellOf g.cell_size e.1 = c)).map Prod.snd

/-- Modelled from the spec: HGrid::cells() covers every non-empty cell
exactly once, yielding (cell_coordinate, particles_in_cell). -/
def cells (g : HGrid) : List (Cell × List Payload) :=
  g.keys.map (fun c => (c, g.cellParticles c))

/-- The 3 x 3 block of cell offsets. -/
def cellOffsets : List Cell :=
  [(-1, -1), (-1, 0), (-1, 1), (0, -1), (0, 0), (0, 1), (1, -1), (1, 0), (1, 1)]

/-- Modelled from the spec: HGrid::neighbor_cells(cell, radius) yields the
cells within the given radius of the cell (including the cell itself) that
exist in the grid; with radius equal to the cell size this is the bounded
3 x 3 block, as the spec states. -/
def neighbor_cells (g : HGrid) (c : Cell) (radius : ℚ) : List (Cell × List Payload) :=
  cellOffsets.filterMap (fun o =>
    let c2 := (c.1 + o.1, c.2 + o.2)
    if c2 ∈ g.keys then some (c2, g.cellParticles c2) else none)

end HGrid

/-!
## Contact builder (compute_contacts of src/geometry/contacts.rs)
-/

/-- Vec::resize(n, v): truncate to n elements or extend with copies of v. -/
def listResize (l : List α) (n : ℕ) (v : α) : List α :=
  l.take n ++ List.replicate (n - l.length) v

/-- The range-resizing loops of compute_contacts: models.iter().zip(lists)
with contact_ranges.resize(num_particles, 0..0); zip truncates to the
shorter side, entries of the list beyond the models are untouched. -/
def resizeRanges (counts : List ℕ) (pcs : List ParticlesContacts) :
    List ParticlesContacts :=
  (List.zipWith
      (fun n pc => { pc with contact_ranges := listResize pc.contact_ranges n (0, 0) })
      counts pcs)
    ++ pcs.drop counts.length

/-- The recording step of compute_contacts: contacts.push(contact) followed
by contact_ranges[i].end += 1 (it appears verbatim in each of the three
recording sites). -/
def ParticlesContacts.push (pc : ParticlesContacts) (i : ℕ) (c : Contact) :
    ParticlesContacts :=
  let r := pc.contact_ranges.getD i (0, 0)
  { contacts := pc.contacts ++ [c],
    contact_ranges := pc.contact_ranges.set i (r.1, r.2 + 1) }

/-- The grid-population phase of compute_contacts (lines 77-100): every fluid
particle is inserted at position + delta when deltas are supplied, tagged
non-boundary; every boundary particle at its raw position, tagged boundary. -/
def buildGrid (h : ℚ) (fluids : List Fluid) (boundaries : List Boundary)
    (fluid_delta_pos : Option (List (List Vec2))) : HGrid :=
  let g := HGrid.new h
  let g := fluids.enum.foldl (fun g fe =>
    match fluid_delta_pos with
    | some deltas =>
      let fluid_deltas := deltas.getD fe.1 []
      fe.2.positions.enum.foldl
        (fun g pe => g.insert (pe.2 + fluid_deltas.getD pe.1 Vec2.zero) (fe.1, pe.1, false))
        g
    | none =>
      fe.2.positions.enum.foldl (fun g pe => g.insert pe.2 (fe.1, pe.1, false)) g) g
  boundaries.enum.foldl (fun g be =>
    be.2.positions.enum.foldl (fun g pe => g.insert pe.2 (be.1, pe.1, true)) g) g

/-- The branch of the cell loop taken for a boundary particle i (lines
106-134): record the empty range at the current end of the flat array, then
scan every particle j of every neighbor cell, skip fluid j, and record a
boundary-boundary contact whenever the squared distance is at most h * h. -/
def visitBoundary (h : ℚ) (boundaries : List Boundary)
    (neighbors : List (Cell × List Payload)) (bb : List ParticlesContacts)
    (b_i p_i : ℕ) : List ParticlesContacts :=
  let pc := bb.getD b_i ParticlesContacts.new
  let bb_start := pc.contacts.length
  let pc := { pc with contact_ranges := pc.contact_ranges.set p_i (bb_start, bb_start) }
  let pc := neighbors.foldl (fun pc nbh =>
    nbh.2.foldl (fun pc pay =>
      if pay.2.2 then
        let pos_i := (boundaries.getD b_i default).positions.getD p_i Vec2.zero
        let pos_j := (boundaries.getD pay.1 default).positions.getD pay.2.1 Vec2.zero
        if distSq pos_i pos_j ≤ h * h then
          pc.push p_i ⟨p_i, b_i, pay.2.1, pay.1, 0, Vec2.zero⟩
        else pc
      else pc) pc) pc
  bb.set b_i pc

/-- The branch of the cell loop taken for a fluid particle i (lines 135-181):
record empty ranges for both lists the fluid owns, then scan every particle j
of every neighbor cell, adjust fluid positions by their deltas when supplied,
and record fluid-boundary or fluid-fluid contacts by the same distance test. -/
def visitFluid (h : ℚ) (fluids : List Fluid) (boundaries : List Boundary)
    (fluid_delta_pos : Option (List (List Vec2)))
    (neighbors : List (Cell × List Payload))
    (ff fb : List ParticlesContacts) (f_i p_i : ℕ) :
    List ParticlesContacts × List ParticlesContacts :=
  let ffpc := ff.getD f_i ParticlesContacts.new
  let fbpc := fb.getD f_i ParticlesContacts.new
  let ff_start := ffpc.contacts.length
  let fb_start := fbpc.contacts.length
  let ffpc := { ffpc with contact_ranges := ffpc.contact_ranges.set p_i (ff_start, ff_start) }
  let fbpc := { fbpc with contact_ranges := fbpc.contact_ranges.set p_i (fb_start, fb_start) }
  let pcs := neighbors.foldl (fun pcs nbh =>
    nbh.2.foldl (fun pcs pay =>
      let pos_i0 := (fluids.getD f_i default).positions.getD p_i Vec2.zero
      let pos_j0 :=
        if pay.2.2 then (boundaries.getD pay.1 default).positions.getD pay.2.1 Vec2.zero
        else (fluids.getD pay.1 default).positions.getD pay.2.1 Vec2.zero
      let pos_i :=
        match fluid_delta_pos with
        | some deltas => pos_i0 + (deltas.getD f_i []).getD p_i Vec2.zero
        | none => pos_i0
      let pos_j :=
        if pay.2.2 then pos_j0
        else
          match fluid_delta_pos with
          | some deltas => pos_j0 + (deltas.getD pay.1 []).getD pay.2.1 Vec2.zero
          | none => pos_j0
      if distSq pos_i pos_j ≤ h * h then
        if pay.2.2 then (pcs.1, pcs.2.push p_i ⟨p_i, f_i, pay.2.1, pay.1, 0, Vec2.zero⟩)
        else (pcs.1.push p_i ⟨p_i, f_i, pay.2.1, pay.1, 0, Vec2.zero⟩, pcs.2)
      else pcs) pcs) (ffpc, fbpc)
  (ff.set f_i pcs.1, fb.set f_i pcs.2)

/-- The three contact-list collections compute_contacts receives through
mutable references and fills in. -/
structure ContactLists where
  ff : List ParticlesContacts
  fb : List ParticlesContacts
  bb : List ParticlesContacts
deriving DecidableEq, Repr

/-- Embeds compute_contacts of src/geometry/contacts.rs: resize the three
collections to the model counts, resize every list's contact_ranges to its
owner's particle count, build the grid, then run the cell loop, dispatching
each resident particle to its boundary or fluid branch. -/
def compute_contacts (h : ℚ) (fluids : List Fluid) (boundaries : List Boundary)
    (fluid_delta_pos : Option (List (List Vec2)))
    (fluid_fluid_contacts fluid_boundary_contacts boundary_boundary_contacts :
      List ParticlesContacts) : ContactLists :=
  let ff := listResize fluid_fluid_contacts fluids.length ParticlesContacts.new
  let fb := listResize fluid_boundary_contacts fluids.length ParticlesContacts.new
  let bb := listResize boundary_boundary_contacts boundaries.length ParticlesContacts.new
  let ff := resizeRanges (fluids.map Fluid.num_particles) ff
  let fb := resizeRanges (fluids.map Fluid.num_particles) fb
  let bb := resizeRanges (boundaries.map Boundary.num_particles) bb
  let grid := buildGrid h fluids boundaries fluid_delta_pos
  grid.cells.foldl (fun st cellp =>
    let neighbors := grid.neighbor_cells cellp.1 h
    cellp.2.foldl (fun st pay =>
      if pay.2.2 then
        { st with bb := visitBoundary h boundaries neighbors st.bb pay.1 pay.2.1 }
      else
        let r := visitFluid h fluids boundaries fluid_delta_pos neighbors st.ff st.fb
          pay.1 pay.2.1
        { st with ff := r.1, fb := r.2 }) st)
    ⟨ff, fb, bb⟩

/-!
## Artificial viscosity (src/solver/viscosity/artificial_viscosity.rs)
-/

/-- Embeds struct ArtificialViscosity<N>. -/
structure ArtificialViscosity where
  alpha : ℚ
  beta : ℚ
  speed_of_sound : ℚ
  viscosity_coefficient : ℚ
deriving DecidableEq, Repr

namespace ArtificialViscosity

/-- Embeds ArtificialViscosity::new(viscosity_coefficient). -/
def new (viscosity_coefficient : ℚ) : ArtificialViscosity :=
  ⟨1, 0, 10, viscosity_coefficient⟩

/-- The acceleration increment contributed by one contact inside the inner
loop of ArtificialViscosity::solve (the body guarded by
c.i_model == c.j_model and vr < 0); zero when a guard fails. -/
def contactTerm (av : ArtificialViscosity) (kernel_radius : ℚ)
    (positions velocities : List Vec2) (volumes : List ℚ) (density0 : ℚ)
    (densities : List ℚ) (c : Contact) : Vec2 :=
  if c.i_model = c.j_model then
    let r_ij := positions.getD c.i Vec2.zero - positions.getD c.j Vec2.zero
    let v_ij := velocities.getD c.i Vec2.zero - velocities.getD c.j Vec2.zero
    let vr := r_ij.dot v_ij
    if vr < 0 then
      let density_average := (densities.getD c.i 0 + densities.getD c.j 0) * (1 / 2)
      let eta2 := kernel_radius * kernel_radius * (1 / 100)
      let mu_ij := kernel_radius * vr / (r_ij.normSq + eta2)
      Vec2.smul ((av.speed_of_sound * av.alpha * mu_ij - av.beta * mu_ij * mu_ij)
          * (volumes.getD c.j 0 * density0 / density_average)) c.gradient
    else Vec2.zero
  else Vec2.zero

/-- Embeds ArtificialViscosity::solve: for every particle index i of the
fluid, fold the inner contact loop over particle_contacts(i) and add the
accumulated value, scaled by viscosity_coefficient, to accelerations[i].
All other fields are returned unchanged (the Rust code only holds a
mutable borrow of fluid.accelerations inside the loop). -/
def solve (av : ArtificialViscosity) (dt inv_dt kernel_radius : ℚ)
    (fluid_fluid_contacts : ParticlesContacts) (fluid : Fluid)
    (densities : List ℚ) : Fluid :=
  { fluid with
    accelerations :=
      (List.range fluid.accelerations.length).map (fun i =>
        let added_acc :=
          (fluid_fluid_contacts.particle_contacts i).foldl
            (fun acc c => acc +
              av.contactTerm kernel_radius fluid.positions fluid.velocities
                fluid.volumes fluid.density0 densities c)
            Vec2.zero
        fluid.accelerations.getD i Vec2.zero +
          Vec2.smul av.viscosity_coefficient added_acc) }

end ArtificialViscosity

/-!
## Generic list helpers
-/

theorem getD_set_self {α : Type} {l : List α} {i : ℕ} (x d : α) (hi : i < l.length) :
    (l.set i x).getD i d = x := by
  rw [List.getD_eq_getElem?_getD, List.getElem?_set_self (by simpa using hi)]
  rfl

theorem getD_set_ne {α : Type} {l : List α} {i j : ℕ} (x d : α) (hij : i ≠ j) :
    (l.set i x).getD j d = l.getD j d := by
  rw [List.getD_eq_getElem?_getD, List.getElem?_set_ne hij, ← List.getD_eq_getElem?_getD]

theorem set_getD_self {α : Type} {l : List α} {i : ℕ} (d : α) (hi : i < l.length) :
    l.set i (l.getD i d) = l := by
  apply List.ext_getElem?
  intro j
  rcases eq_or_ne i j with rfl | hij
  · rw [List.getElem?_set_self (by simpa using hi)]
    rw [List.getD_eq_getElem?_getD, List.getElem?_eq_getElem hi]
    rfl
  · rw [List.getElem?_set_ne hij]

theorem getD_eq_getElem_of_lt {α : Type} (l : List α) (d : α) {i : ℕ} (hi : i < l.length) :
    l.getD i d = l[i] :=
  List.getD_eq_getElem l d hi

/-!
## Closed form of one recording visit

The cell loop of compute_contacts processes each resident particle once,
appending its matches to the owning flat array and leaving that particle's
range delimiting exactly the appended block.  appendWith is that closed
form; processRecs chains the visits of one list.  The fold bodies of
visitBoundary and visitFluid are proved equal to this closed form below.
-/

/-- Closed form of one particle's visit on one ParticlesContacts list:
append the matched contacts and set the particle's range around them. -/
def appendWith (pc : ParticlesContacts) (p : ℕ) (ms : List Contact) :
    ParticlesContacts :=
  ⟨pc.contacts ++ ms,
   pc.contact_ranges.set p (pc.contacts.length, pc.contacts.length + ms.length)⟩

/-- Chain the closed-form visits of a list of (particle, matches) records. -/
def processRecs (pc : ParticlesContacts) (recs : List (ℕ × List Contact)) :
    ParticlesContacts :=
  recs.foldl (fun pc r => appendWith pc r.1 r.2) pc

theorem processRecs_nil (pc : ParticlesContacts) : processRecs pc [] = pc := rfl

theorem processRecs_cons (pc : ParticlesContacts) (r : ℕ × List Contact)
    (recs : List (ℕ × List Contact)) :
    processRecs pc (r :: recs) = processRecs (appendWith pc r.1 r.2) recs := rfl

theorem processRecs_cons_mk (pc : ParticlesContacts) (a : ℕ) (b : List Contact)
    (recs : List (ℕ × List Contact)) :
    processRecs pc ((a, b) :: recs) = processRecs (appendWith pc a b) recs := rfl

theorem processRecs_ranges_length (pc : ParticlesContacts)
    (recs : List (ℕ × List Contact)) :
    (processRecs pc recs).contact_ranges.length = pc.contact_ranges.length := by
  induction recs generalizing pc with
  | nil => rfl
  | cons r rest ih =>
    rw [processRecs_cons, ih]
    simp [appendWith]

theorem processRecs_contacts (pc : ParticlesContacts)
    (recs : List (ℕ × List Contact)) :
    (processRecs pc recs).contacts = pc.contacts ++ (recs.map Prod.snd).flatten := by
  induction recs generalizing pc with
  | nil => simp [processRecs_nil]
  | cons r rest ih =>
    rw [processRecs_cons, ih]
    simp [appendWith]

theorem processRecs_ranges_notMem (pc : ParticlesContacts)
    (recs : List (ℕ × List Contact)) (q : ℕ) (hq : q ∉ recs.map Prod.fst) :
    (processRecs pc recs).contact_ranges.getD q (0, 0) =
      pc.contact_ranges.getD q (0, 0) := by
  induction recs generalizing pc with
  | nil => rfl
  | cons r rest ih =>
    simp only [List.map_cons, List.mem_cons, not_or] at hq
    rw [processRecs_cons, ih _ hq.2]
    exact getD_set_ne _ _ (fun e => hq.1 e.symm)

theorem processRecs_mem_ranges (pc : ParticlesContacts)
    (recs : List (ℕ × List Contact)) (p : ℕ) (ms : List Contact)
    (nodup : (recs.map Prod.fst).Nodup) (hmem : (p, ms) ∈ recs)
    (hp : p < pc.contact_ranges.length) :
    ∃ s, (processRecs pc recs).contact_ranges.getD p (0, 0) = (s, s + ms.length) ∧
      pc.contacts.length ≤ s ∧
      s + ms.length ≤ (processRecs pc recs).contacts.length ∧
      (((processRecs pc recs).contacts.drop s).take ms.length) = ms := by
  induction recs generalizing pc with
  | nil => cases hmem
  | cons r rest ih =>
    simp only [List.map_cons, List.nodup_cons] at nodup
    rcases List.mem_cons.1 hmem with heq | hrest
    · subst heq
      refine ⟨pc.contacts.length, ?_, le_refl _, ?_, ?_⟩
      · rw [processRecs_cons, processRecs_ranges_notMem _ _ _ (by simpa using nodup.1)]
        exact getD_set_self _ _ (by simpa [appendWith] using hp)
      · rw [processRecs_cons, processRecs_contacts]
        simp [appendWith]
      · rw [processRecs_cons, processRecs_contacts]
        simp only [appendWith, List.append_assoc]
        rw [List.drop_left, List.take_left]
    · have hpf : p ∈ rest.map Prod.fst :=
        List.mem_map.2 ⟨(p, ms), hrest, rfl⟩
      have hne : r.1 ≠ p := fun e => nodup.1 (e ▸ hpf)
      rw [processRecs_cons]
      obtain ⟨s, hs, hs1, hs2, hs3⟩ :=
        ih (appendWith pc r.1 r.2) nodup.2 hrest (by simpa [appendWith] using hp)
      refine ⟨s, hs, le_trans ?_ hs1, hs2, hs3⟩
      simp [appendWith]

theorem processRecs_disjoint (pc : ParticlesContacts)
    (recs : List (ℕ × List Contact)) (p q : ℕ) (ms1 ms2 : List Contact)
    (nodup : (recs.map Prod.fst).Nodup)
    (h1 : (p, ms1) ∈ recs) (h2 : (q, ms2) ∈ recs) (hne : p ≠ q)
    (hp : p < pc.contact_ranges.length) (hq : q < pc.contact_ranges.length) :
    ((processRecs pc recs).contact_ranges.getD p (0, 0)).2 ≤
        ((processRecs pc recs).contact_ranges.getD q (0, 0)).1 ∨
      ((processRecs pc recs).contact_ranges.getD q (0, 0)).2 ≤
        ((processRecs pc recs).contact_ranges.getD p (0, 0)).1 := by
  induction recs generalizing pc with
  | nil => cases h1
  | cons r rest ih =>
    simp only [List.map_cons, List.nodup_cons] at nodup
    rcases List.mem_cons.1 h1 with he1 | hr1 <;> rcases List.mem_cons.1 h2 with he2 | hr2
    · rw [← he2] at he1
      simp only [Prod.mk.injEq] at he1
      exact absurd he1.1 hne
    · left
      subst he1
      rw [processRecs_cons_mk,
        processRecs_ranges_notMem _ _ _ (by simpa using nodup.1)]
      simp only [appendWith]
      rw [getD_set_self _ _ (by simpa using hp)]
      obtain ⟨s, hs, hs1, _, _⟩ :=
        processRecs_mem_ranges (appendWith pc p ms1) rest q ms2 nodup.2 hr2
          (by simpa [appendWith] using hq)
      simp only [appendWith] at hs hs1
      rw [hs]
      simpa using hs1
    · right
      subst he2
      rw [processRecs_cons_mk,
        processRecs_ranges_notMem _ _ _ (by simpa using nodup.1)]
      simp only [appendWith]
      rw [getD_set_self _ _ (by simpa using hq)]
      obtain ⟨s, hs, hs1, _, _⟩ :=
        processRecs_mem_ranges (appendWith pc q ms2) rest p ms1 nodup.2 hr1
          (by simpa [appendWith] using hp)
      simp only [appendWith] at hs hs1
      rw [hs]
      simpa using hs1
    · rw [processRecs_cons]
      exact ih (appendWith pc r.1 r.2) nodup.2 hr1 hr2
        (by simpa [appendWith] using hp) (by simpa [appendWith] using hq)

/-!
## Positions as the builder reads them, and per-visit match lists
-/

/-- The position of boundary particle p of boundary model m, exactly the
expression boundaries[m].positions[p] used by compute_contacts. -/
def bPos (boundaries : List Boundary) (m p : ℕ) : Vec2 :=
  (boundaries.getD m default).positions.getD p Vec2.zero

/-- The delta-adjusted position of fluid particle p of fluid model m: the
expression compute_contacts evaluates both at grid insertion time and at
distance-test time (position plus its delta when deltas are supplied). -/
def fPos (fluids : List Fluid) (fluid_delta_pos : Option (List (List Vec2)))
    (m p : ℕ) : Vec2 :=
  match fluid_delta_pos with
  | some deltas =>
    (fluids.getD m default).positions.getD p Vec2.zero +
      (deltas.getD m []).getD p Vec2.zero
  | none => (fluids.getD m default).positions.getD p Vec2.zero

/-- The contact decision of the boundary branch for one scanned payload:
some contact when j is a boundary particle within h of i, none otherwise. -/
def bbDecide (h : ℚ) (boundaries : List Boundary) (m p : ℕ) (pay : Payload) :
    Option Contact :=
  if pay.2.2 = true then
    if distSq (bPos boundaries m p) (bPos boundaries pay.1 pay.2.1) ≤ h * h then
      some ⟨p, m, pay.2.1, pay.1, 0, Vec2.zero⟩
    else none
  else none

/-- The contact decision of the fluid branch, fluid-fluid side. -/
def ffDecide (h : ℚ) (fluids : List Fluid)
    (fluid_delta_pos : Option (List (List Vec2))) (m p : ℕ) (pay : Payload) :
    Option Contact :=
  if pay.2.2 = false then
    if distSq (fPos fluids fluid_delta_pos m p)
        (fPos fluids fluid_delta_pos pay.1 pay.2.1) ≤ h * h then
      some ⟨p, m, pay.2.1, pay.1, 0, Vec2.zero⟩
    else none
  else none

/-- The contact decision of the fluid branch, fluid-boundary side. -/
def fbDecide (h : ℚ) (fluids : List Fluid) (boundaries : List Boundary)
    (fluid_delta_pos : Option (List (List Vec2))) (m p : ℕ) (pay : Payload) :
    Option Contact :=
  if pay.2.2 = true then
    if distSq (fPos fluids fluid_delta_pos m p)
        (bPos boundaries pay.1 pay.2.1) ≤ h * h then
      some ⟨p, m, pay.2.1, pay.1, 0, Vec2.zero⟩
    else none
  else none

/-- The flattened payload scan order of one visit: all particles of all
neighbor cells, in the order the two nested loops of the builder read them. -/
def nbhPayloads (neighbors : List (Cell × List Payload)) : List Payload :=
  (neighbors.map (fun nbh => nbh.2)).flatten

/-!
## The visit folds in closed form
-/

theorem foldl_pushOpt (F : Payload → Option Contact) (pays : List Payload) :
    ∀ (pc : ParticlesContacts) (p s k : ℕ),
    p < pc.contact_ranges.length →
    pc.contact_ranges.getD p (0, 0) = (s, s + k) →
    pays.foldl
      (fun pc pay => match F pay with | some c => pc.push p c | none => pc) pc
    = ⟨pc.contacts ++ pays.filterMap F,
       pc.contact_ranges.set p (s, s + (k + (pays.filterMap F).length))⟩ := by
  induction pays with
  | nil =>
    intro pc p s k hp hr
    simp only [List.foldl_nil, List.filterMap_nil, List.append_nil, List.length_nil,
      Nat.add_zero]
    rw [← hr, set_getD_self _ hp]
  | cons pay rest ih =>
    intro pc p s k hp hr
    rw [List.foldl_cons]
    cases hF : F pay with
    | none => simp only [hF, List.filterMap_cons, ih pc p s k hp hr]
    | some c =>
      simp only [hF, List.filterMap_cons]
      have hbody : pc.push p c =
          ⟨pc.contacts ++ [c], pc.contact_ranges.set p (s, s + k + 1)⟩ := by
        show (⟨pc.contacts ++ [c], pc.contact_ranges.set p
            ((pc.contact_ranges.getD p (0, 0)).1,
             (pc.contact_ranges.getD p (0, 0)).2 + 1)⟩ : ParticlesContacts) = _
        rw [hr]
      rw [hbody,
        ih _ p s (k + 1) (by simpa using hp)
          (by rw [getD_set_self _ _ (by simpa using hp)]
              exact congrArg (Prod.mk s) (by omega))]
      simp only [List.set_set, List.append_assoc, List.singleton_append,
        List.length_cons, ParticlesContacts.mk.injEq]
      refine ⟨trivial, ?_⟩
      have harith : k + 1 + (rest.filterMap F).length =
          k + ((rest.filterMap F).length + 1) := by omega
      rw [harith]

theorem foldl_pushOpt_pair (F G : Payload → Option Contact) (pays : List Payload)
    (p : ℕ) : ∀ (a b : ParticlesContacts),
    pays.foldl (fun pcs pay =>
        ((match F pay with | some c => pcs.1.push p c | none => pcs.1),
         (match G pay with | some c => pcs.2.push p c | none => pcs.2))) (a, b)
    = (pays.foldl
         (fun pc pay => match F pay with | some c => pc.push p c | none => pc) a,
       pays.foldl
         (fun pc pay => match G pay with | some c => pc.push p c | none => pc) b) := by
  induction pays with
  | nil => intro a b; rfl
  | cons pay rest ih =>
    intro a b
    simp only [List.foldl_cons]
    cases F pay <;> cases G pay <;> exact ih _ _

theorem foldl_nbh {β : Type} (neighbors : List (Cell × List Payload))
    (body : β → Payload → β) (b : β) :
    neighbors.foldl (fun st nbh => nbh.2.foldl body st) b =
      (nbhPayloads neighbors).foldl body b := by
  simp only [nbhPayloads]
  rw [List.foldl_flatten, List.foldl_map]

theorem visitBoundary_eq (h : ℚ) (boundaries : List Boundary)
    (neighbors : List (Cell × List Payload)) (bb : List ParticlesContacts)
    (b_i p_i : ℕ)
    (hp : p_i < (bb.getD b_i ParticlesContacts.new).contact_ranges.length) :
    visitBoundary h boundaries neighbors bb b_i p_i =
      bb.set b_i (appendWith (bb.getD b_i ParticlesContacts.new) p_i
        ((nbhPayloads neighbors).filterMap (bbDecide h boundaries b_i p_i))) := by
  simp only [visitBoundary]
  rw [foldl_nbh]
  have hext : ∀ (pc : ParticlesContacts), ∀ pay ∈ nbhPayloads neighbors,
      (if pay.2.2 then
        (if distSq ((boundaries.getD b_i default).positions.getD p_i Vec2.zero)
            ((boundaries.getD pay.1 default).positions.getD pay.2.1 Vec2.zero) ≤ h * h
         then pc.push p_i ⟨p_i, b_i, pay.2.1, pay.1, 0, Vec2.zero⟩ else pc)
       else pc)
      = (match bbDecide h boundaries b_i p_i pay with
         | some c => pc.push p_i c
         | none => pc) := by
    intro pc pay _
    rcases pay with ⟨m, p, kind⟩
    cases kind
    · rfl
    · show (if distSq ((boundaries.getD b_i default).positions.getD p_i Vec2.zero)
            ((boundaries.getD m default).positions.getD p Vec2.zero) ≤ h * h
          then pc.push p_i ⟨p_i, b_i, p, m, 0, Vec2.zero⟩ else pc)
        = match (if distSq ((boundaries.getD b_i default).positions.getD p_i Vec2.zero)
            ((boundaries.getD m default).positions.getD p Vec2.zero) ≤ h * h
          then some (⟨p_i, b_i, p, m, 0, Vec2.zero⟩ : Contact) else none) with
          | some c => pc.push p_i c
          | none => pc
      by_cases hd : distSq ((boundaries.getD b_i default).positions.getD p_i Vec2.zero)
          ((boundaries.getD m default).positions.getD p Vec2.zero) ≤ h * h
      · rw [if_pos hd, if_pos hd]
      · rw [if_neg hd, if_neg hd]
  rw [List.foldl_ext _ _ _ hext]
  rw [foldl_pushOpt (bbDecide h boundaries b_i p_i) (nbhPayloads neighbors) _ p_i
    (bb.getD b_i ParticlesContacts.new).contacts.length 0 (by simpa using hp)
    (by rw [getD_set_self _ _ (by simpa using hp)]; rfl)]
  simp [appendWith, List.set_set]

theorem fPos_some (fluids : List Fluid) (deltas : List (List Vec2)) (m p : ℕ) :
    fPos fluids (some deltas) m p =
      (fluids.getD m default).positions.getD p Vec2.zero +
        (deltas.getD m []).getD p Vec2.zero := rfl

theorem fPos_none (fluids : List Fluid) (m p : ℕ) :
    fPos fluids none m p =
      (fluids.getD m default).positions.getD p Vec2.zero := rfl

theorem visitFluid_eq (h : ℚ) (fluids : List Fluid) (boundaries : List Boundary)
    (fluid_delta_pos : Option (List (List Vec2)))
    (neighbors : List (Cell × List Payload))
    (ff fb : List ParticlesContacts) (f_i p_i : ℕ)
    (hpf : p_i < (ff.getD f_i ParticlesContacts.new).contact_ranges.length)
    (hpb : p_i < (fb.getD f_i ParticlesContacts.new).contact_ranges.length) :
    visitFluid h fluids boundaries fluid_delta_pos neighbors ff fb f_i p_i =
      (ff.set f_i (appendWith (ff.getD f_i ParticlesContacts.new) p_i
         ((nbhPayloads neighbors).filterMap
           (ffDecide h fluids fluid_delta_pos f_i p_i))),
       fb.set f_i (appendWith (fb.getD f_i ParticlesContacts.new) p_i
         ((nbhPayloads neighbors).filterMap
           (fbDecide h fluids boundaries fluid_delta_pos f_i p_i)))) := by
  simp only [visitFluid]
  rw [foldl_nbh]
  have hext : ∀ (pcs : ParticlesContacts × ParticlesContacts),
      ∀ pay ∈ nbhPayloads neighbors,
      (let pos_i0 := (fluids.getD f_i default).positions.getD p_i Vec2.zero
       let pos_j0 :=
         if pay.2.2 then (boundaries.getD pay.1 default).positions.getD pay.2.1 Vec2.zero
         else (fluids.getD pay.1 default).positions.getD pay.2.1 Vec2.zero
       let pos_i :=
         match fluid_delta_pos with
         | some deltas => pos_i0 + (deltas.getD f_i []).getD p_i Vec2.zero
         | none => pos_i0
       let pos_j :=
         if pay.2.2 then pos_j0
         else
           match fluid_delta_pos with
           | some deltas => pos_j0 + (deltas.getD pay.1 []).getD pay.2.1 Vec2.zero
           | none => pos_j0
       if distSq pos_i pos_j ≤ h * h then
         if pay.2.2 then (pcs.1, pcs.2.push p_i ⟨p_i, f_i, pay.2.1, pay.1, 0, Vec2.zero⟩)
         else (pcs.1.push p_i ⟨p_i, f_i, pay.2.1, pay.1, 0, Vec2.zero⟩, pcs.2)
       else pcs)
      = ((match ffDecide h fluids fluid_delta_pos f_i p_i pay with
          | some c => pcs.1.push p_i c
          | none => pcs.1),
         (match fbDecide h fluids boundaries fluid_delta_pos f_i p_i pay with
          | some c => pcs.2.push p_i c
          | none => pcs.2)) := by
    intro pcs pay _
    rcases pay with ⟨m, p, kind⟩
    cases kind <;> cases fluid_delta_pos <;>
      simp only [ffDecide, fbDecide, bPos, fPos_some, fPos_none, Bool.false_eq_true,
        Bool.true_eq_false, if_false, if_true, ite_false, ite_true, reduceIte] <;>
      split_ifs <;> rfl
  rw [List.foldl_ext _ _ _ hext]
  rw [foldl_pushOpt_pair]
  rw [foldl_pushOpt (ffDecide h fluids fluid_delta_pos f_i p_i) (nbhPayloads neighbors)
    _ p_i (ff.getD f_i ParticlesContacts.new).contacts.length 0 (by simpa using hpf)
    (by rw [getD_set_self _ _ (by simpa using hpf)]; rfl)]
  rw [foldl_pushOpt (fbDecide h fluids boundaries fluid_delta_pos f_i p_i)
    (nbhPayloads neighbors)
    _ p_i (fb.getD f_i ParticlesContacts.new).contacts.length 0 (by simpa using hpb)
    (by rw [getD_set_self _ _ (by simpa using hpb)]; rfl)]
  simp [appendWith, List.set_set]

/-!
## Grid facts
-/

/-- Particle counts of a fluid model, read with getD as the builder does. -/
def numPF (fluids : List Fluid) (m : ℕ) : ℕ :=
  (fluids.getD m default).num_particles

/-- Particle counts of a boundary model, read with getD as the builder does. -/
def numPB (boundaries : List Boundary) (m : ℕ) : ℕ :=
  (boundaries.getD m default).num_particles

theorem enum_map_eq_range_map {α β : Type} (l : List α) (F : ℕ → α → β) (d : α) :
    l.enum.map (fun pe => F pe.1 pe.2) =
      (List.range l.length).map (fun i => F i (l.getD i d)) := by
  apply List.ext_getElem
  · simp
  · intro i h1 h2
    simp only [List.getElem_map, List.getElem_enum, List.getElem_range]
    congr 1
    rw [List.getD_eq_getElem]

theorem foldl_insert_entries {α : Type} (l : List α) (P : α → Vec2)
    (Q : α → Payload) : ∀ g : HGrid,
    (l.foldl (fun g x => g.insert (P x) (Q x)) g) =
      ⟨g.cell_size, g.entries ++ l.map (fun x => (P x, Q x))⟩ := by
  induction l with
  | nil => intro g; simp
  | cons x xs ih =>
    intro g
    rw [List.foldl_cons, ih]
    simp [HGrid.insert]

theorem foldl_entries_blocks {α : Type} (l : List α) (step : HGrid → α → HGrid)
    (B : α → List (Vec2 × Payload))
    (hstep : ∀ g x, step g x = ⟨g.cell_size, g.entries ++ B x⟩) :
    ∀ g, l.foldl step g = ⟨g.cell_size, g.entries ++ l.flatMap B⟩ := by
  induction l with
  | nil => intro g; simp
  | cons x xs ih =>
    intro g
    rw [List.foldl_cons, hstep, ih]
    simp

theorem enum_flatMap_eq_range {α β : Type} (l : List α) (F : ℕ → α → List β)
    (d : α) :
    l.enum.flatMap (fun fe => F fe.1 fe.2) =
      (List.range l.length).flatMap (fun m => F m (l.getD m d)) := by
  rw [List.flatMap_def, List.flatMap_def,
    enum_map_eq_range_map l (fun i v => F i v) d]

/-- The fluid-insertion block of one fluid model, as buildGrid performs it. -/
def fluidBlock (fluid_delta_pos : Option (List (List Vec2))) (fe : ℕ × Fluid) :
    List (Vec2 × Payload) :=
  match fluid_delta_pos with
  | some deltas =>
    fe.2.positions.enum.map (fun pe =>
      (pe.2 + (deltas.getD fe.1 []).getD pe.1 Vec2.zero, (fe.1, pe.1, false)))
  | none => fe.2.positions.enum.map (fun pe => (pe.2, (fe.1, pe.1, false)))

/-- The boundary-insertion block of one boundary model. -/
def boundaryBlock (be : ℕ × Boundary) : List (Vec2 × Payload) :=
  be.2.positions.enum.map (fun pe => (pe.2, (be.1, pe.1, true)))

theorem buildGrid_eq (h : ℚ) (fluids : List Fluid)
    (boundaries : List Boundary) (fluid_delta_pos : Option (List (List Vec2))) :
    buildGrid h fluids boundaries fluid_delta_pos =
      ⟨h, fluids.enum.flatMap (fluidBlock fluid_delta_pos)
          ++ boundaries.enum.flatMap boundaryBlock⟩ := by
  have hf : ∀ (g : HGrid) (fe : ℕ × Fluid),
      ((match fluid_delta_pos with
       | some deltas =>
         fe.2.positions.enum.foldl
           (fun g pe => g.insert (pe.2 + (deltas.getD fe.1 []).getD pe.1 Vec2.zero)
             (fe.1, pe.1, false)) g
       | none =>
         fe.2.positions.enum.foldl
           (fun g pe => g.insert pe.2 (fe.1, pe.1, false)) g : HGrid))
      = ⟨g.cell_size, g.entries ++ fluidBlock fluid_delta_pos fe⟩ := by
    intro g fe
    cases fluid_delta_pos with
    | none => exact foldl_insert_entries _ _ _ g
    | some deltas => exact foldl_insert_entries _ _ _ g
  have hb : ∀ (g : HGrid) (be : ℕ × Boundary),
      be.2.positions.enum.foldl (fun g pe => g.insert pe.2 (be.1, pe.1, true)) g
      = ⟨g.cell_size, g.entries ++ boundaryBlock be⟩ := by
    intro g be
    exact foldl_insert_entries _ _ _ g
  simp only [buildGrid]
  rw [foldl_entries_blocks fluids.enum _ (fluidBlock fluid_delta_pos) hf,
      foldl_entries_blocks boundaries.enum _ boundaryBlock hb]
  simp [HGrid.new]

theorem buildGrid_cell_size (h : ℚ) (fluids : List Fluid)
    (boundaries : List Boundary) (fluid_delta_pos : Option (List (List Vec2))) :
    (buildGrid h fluids boundaries fluid_delta_pos).cell_size = h := by
  rw [buildGrid_eq]

theorem buildGrid_entries (h : ℚ) (fluids : List Fluid)
    (boundaries : List Boundary) (fluid_delta_pos : Option (List (List Vec2))) :
    (buildGrid h fluids boundaries fluid_delta_pos).entries =
      (List.range fluids.length).flatMap (fun m =>
        (List.range (numPF fluids m)).map (fun i =>
          (fPos fluids fluid_delta_pos m i, ((m, i, false) : Payload))))
      ++ (List.range boundaries.length).flatMap (fun m =>
        (List.range (numPB boundaries m)).map (fun i =>
          (bPos boundaries m i, ((m, i, true) : Payload)))) := by
  rw [buildGrid_eq]
  show fluids.enum.flatMap (fluidBlock fluid_delta_pos)
      ++ boundaries.enum.flatMap boundaryBlock = _
  congr 1
  · rw [enum_flatMap_eq_range fluids
      (fun m fl => fluidBlock fluid_delta_pos (m, fl)) default,
      List.flatMap_def, List.flatMap_def]
    congr 1
    apply List.map_congr_left
    intro m _
    cases fluid_delta_pos with
    | none =>
      exact enum_map_eq_range_map (fluids.getD m default).positions
        (fun i v => ((v, (m, i, false)) : Vec2 × Payload)) Vec2.zero
    | some deltas =>
      exact enum_map_eq_range_map (fluids.getD m default).positions
        (fun i v => ((v + (deltas.getD m []).getD i Vec2.zero,
          (m, i, false)) : Vec2 × Payload)) Vec2.zero
  · rw [enum_flatMap_eq_range boundaries (fun m bd => boundaryBlock (m, bd)) default,
      List.flatMap_def, List.flatMap_def]
    congr 1
    apply List.map_congr_left
    intro m _
    exact enum_map_eq_range_map (boundaries.getD m default).positions
      (fun i v => ((v, (m, i, true)) : Vec2 × Payload)) Vec2.zero

theorem mem_buildGrid_entries (h : ℚ) (fluids : List Fluid)
    (boundaries : List Boundary) (fluid_delta_pos : Option (List (List Vec2)))
    (e : Vec2 × Payload) :
    e ∈ (buildGrid h fluids boundaries fluid_delta_pos).entries ↔
      (∃ m i, m < fluids.length ∧ i < numPF fluids m ∧
        e = (fPos fluids fluid_delta_pos m i, (m, i, false)))
      ∨ (∃ m i, m < boundaries.length ∧ i < numPB boundaries m ∧
        e = (bPos boundaries m i, (m, i, true))) := by
  rw [buildGrid_entries]
  simp only [List.mem_append, List.mem_flatMap, List.mem_map, List.mem_range]
  constructor
  · rintro (⟨m, hm, i, hi, rfl⟩ | ⟨m, hm, i, hi, rfl⟩)
    · exact Or.inl ⟨m, i, hm, hi, rfl⟩
    · exact Or.inr ⟨m, i, hm, hi, rfl⟩
  · rintro (⟨m, i, hm, hi, rfl⟩ | ⟨m, i, hm, hi, rfl⟩)
    · exact Or.inl ⟨m, hm, i, hi, rfl⟩
    · exact Or.inr ⟨m, hm, i, hi, rfl⟩

theorem nodup_flatMap_range_map {β : Type} (k : ℕ → ℕ) (G : ℕ → ℕ → β)
    (hinj : ∀ m1 i1 m2 i2, G m1 i1 = G m2 i2 → m1 = m2 ∧ i1 = i2) :
    ∀ n : ℕ,
    ((List.range n).flatMap (fun m => (List.range (k m)).map (fun i => G m i))).Nodup := by
  intro n
  induction n with
  | zero => simp
  | succ n ih =>
    rw [List.range_succ, List.flatMap_append]
    rw [List.nodup_append]
    refine ⟨ih, ?_, ?_⟩
    · simp only [List.flatMap_cons, List.flatMap_nil, List.append_nil]
      exact List.Nodup.map (fun i1 i2 hh => (hinj n i1 n i2 hh).2) (List.nodup_range _)
    · intro x hx hx2
      simp only [List.mem_flatMap, List.mem_range, List.mem_map] at hx
      simp only [List.flatMap_cons, List.flatMap_nil, List.append_nil,
        List.mem_map, List.mem_range] at hx2
      obtain ⟨m, hm, i, _, rfl⟩ := hx
      obtain ⟨j, _, hj⟩ := hx2
      exact absurd (hinj n j m i hj).1.symm (Nat.ne_of_lt hm)

theorem buildGrid_payloads_nodup (h : ℚ) (fluids : List Fluid)
    (boundaries : List Boundary) (fluid_delta_pos : Option (List (List Vec2))) :
    ((buildGrid h fluids boundaries fluid_delta_pos).entries.map Prod.snd).Nodup := by
  rw [buildGrid_entries, List.map_append, List.map_flatMap, List.map_flatMap]
  rw [List.nodup_append]
  refine ⟨?_, ?_, ?_⟩
  · simp only [List.map_map]
    exact nodup_flatMap_range_map (numPF fluids)
      (fun m i => ((m, i, false) : Payload))
      (fun m1 i1 m2 i2 hh => by
        simp only [Prod.mk.injEq] at hh
        exact ⟨hh.1, hh.2.1⟩) fluids.length
  · simp only [List.map_map]
    exact nodup_flatMap_range_map (numPB boundaries)
      (fun m i => ((m, i, true) : Payload))
      (fun m1 i1 m2 i2 hh => by
        simp only [Prod.mk.injEq] at hh
        exact ⟨hh.1, hh.2.1⟩) boundaries.length
  · intro x hx hx2
    simp only [List.mem_flatMap, List.mem_range, List.mem_map, List.map_map,
      Function.comp] at hx hx2
    obtain ⟨m, _, i, _, rfl⟩ := hx
    obtain ⟨m2, _, i2, _, hj⟩ := hx2
    simp at hj

theorem keys_foldl_mem (cs : ℚ) (entries : List (Vec2 × Payload)) :
    ∀ (acc : List Cell) (c : Cell),
    (c ∈ entries.foldl
        (fun ks e => if cellOf cs e.1 ∈ ks then ks else ks ++ [cellOf cs e.1]) acc) ↔
      c ∈ acc ∨ ∃ e ∈ entries, cellOf cs e.1 = c := by
  induction entries with
  | nil => simp
  | cons e rest ih =>
    intro acc c
    rw [List.foldl_cons]
    by_cases hmem : cellOf cs e.1 ∈ acc
    · rw [if_pos hmem, ih]
      simp only [List.mem_cons]
      constructor
      · rintro (hc | ⟨e2, he2, hce⟩)
        · exact Or.inl hc
        · exact Or.inr ⟨e2, Or.inr he2, hce⟩
      · rintro (hc | ⟨e2, (rfl | he2), hce⟩)
        · exact Or.inl hc
        · exact Or.inl (hce ▸ hmem)
        · exact Or.inr ⟨e2, he2, hce⟩
    · rw [if_neg hmem, ih]
      simp only [List.mem_append, List.mem_singleton, List.mem_cons,
        List.not_mem_nil, or_false, false_or]
      constructor
      · rintro ((hc | hc) | ⟨e2, he2, hce⟩)
        · exact Or.inl hc
        · exact Or.inr ⟨e, Or.inl rfl, hc.symm⟩
        · exact Or.inr ⟨e2, Or.inr he2, hce⟩
      · rintro (hc | ⟨e2, (rfl | he2), hce⟩)
        · exact Or.inl (Or.inl hc)
        · exact Or.inl (Or.inr hce.symm)
        · exact Or.inr ⟨e2, he2, hce⟩

theorem keys_foldl_nodup (cs : ℚ) (entries : List (Vec2 × Payload)) :
    ∀ (acc : List Cell), acc.Nodup →
    (entries.foldl
      (fun ks e => if cellOf cs e.1 ∈ ks then ks else ks ++ [cellOf cs e.1]) acc).Nodup := by
  induction entries with
  | nil => intro acc hacc; exact hacc
  | cons e rest ih =>
    intro acc hacc
    rw [List.foldl_cons]
    by_cases hmem : cellOf cs e.1 ∈ acc
    · rw [if_pos hmem]; exact ih acc hacc
    · rw [if_neg hmem]
      refine ih _ ?_
      rw [List.nodup_append]
      exact ⟨hacc, List.nodup_singleton _, by simpa using fun hc => hmem hc⟩

theorem HGrid.mem_keys (g : HGrid) (c : Cell) :
    c ∈ g.keys ↔ ∃ e ∈ g.entries, cellOf g.cell_size e.1 = c := by
  rw [HGrid.keys, keys_foldl_mem]
  simp

theorem HGrid.keys_nodup (g : HGrid) : g.keys.Nodup :=
  keys_foldl_nodup g.cell_size g.entries [] List.nodup_nil

theorem HGrid.mem_cellParticles (g : HGrid) (c : Cell) (pay : Payload) :
    pay ∈ g.cellParticles c ↔
      ∃ pos, (pos, pay) ∈ g.entries ∧ cellOf g.cell_size pos = c := by
  rw [HGrid.cellParticles]
  simp only [List.mem_map, List.mem_filter]
  constructor
  · rintro ⟨⟨pos, pay2⟩, ⟨he, hc⟩, rfl⟩
    exact ⟨pos, he, by simpa using hc⟩
  · rintro ⟨pos, he, hc⟩
    exact ⟨(pos, pay), ⟨he, by simpa using hc⟩, rfl⟩

/-- The sequence of (resident particle, neighborhood) visits the cell loop of
compute_contacts performs, in order. -/
def visits (g : HGrid) (h : ℚ) : List (Payload × List (Cell × List Payload)) :=
  g.cells.flatMap (fun cp => cp.2.map (fun pay => (pay, g.neighbor_cells cp.1 h)))

theorem mem_visits (g : HGrid) (h : ℚ) (pay : Payload)
    (nbh : List (Cell × List Payload)) :
    (pay, nbh) ∈ visits g h ↔
      ∃ c, c ∈ g.keys ∧ pay ∈ g.cellParticles c ∧ nbh = g.neighbor_cells c h := by
  simp only [visits, HGrid.cells, List.mem_flatMap, List.mem_map, Prod.mk.injEq]
  constructor
  · rintro ⟨cp, ⟨c, hc, rfl⟩, pay2, hpay2, heq, hnbh⟩
    exact ⟨c, hc, heq ▸ hpay2, hnbh.symm⟩
  · rintro ⟨c, hc, hpay, rfl⟩
    exact ⟨(c, g.cellParticles c), ⟨c, hc, rfl⟩, pay, hpay, rfl, rfl⟩

theorem visits_map_fst (g : HGrid) (h : ℚ) :
    (visits g h).map Prod.fst = g.keys.flatMap (fun c => g.cellParticles c) := by
  rw [visits, HGrid.cells, List.map_flatMap, List.flatMap_map]
  congr 1
  funext cp
  rw [List.map_map]
  show List.map (fun pay => pay) (g.cellParticles cp) = g.cellParticles cp
  exact List.map_id _

theorem nodup_flatMap_cellParticles (g : HGrid)
    (hent : (g.entries.map Prod.snd).Nodup) :
    ∀ (ks : List Cell), ks.Nodup →
    (ks.flatMap (fun c => g.cellParticles c)).Nodup := by
  intro ks
  induction ks with
  | nil => simp
  | cons c rest ih =>
    intro hnd
    rw [List.nodup_cons] at hnd
    rw [List.flatMap_cons, List.nodup_append]
    refine ⟨?_, ih hnd.2, ?_⟩
    · rw [HGrid.cellParticles]
      exact List.Nodup.sublist
        (List.Sublist.map Prod.snd (List.filter_sublist g.entries)) hent
    · intro pay hpay hpay2
      simp only [List.mem_flatMap] at hpay2
      obtain ⟨c2, hc2, hpayc2⟩ := hpay2
      obtain ⟨pos, he, hcell⟩ := (g.mem_cellParticles c pay).1 hpay
      obtain ⟨pos2, he2, hcell2⟩ := (g.mem_cellParticles c2 pay).1 hpayc2
      have hee : (pos, pay) = (pos2, pay) :=
        List.inj_on_of_nodup_map hent he he2 rfl
      have hpos : pos = pos2 := congrArg Prod.fst hee
      have hcc : c = c2 := by rw [← hcell, hpos, hcell2]
      exact hnd.1 (hcc ▸ hc2)

theorem visits_fst_nodup (g : HGrid) (h : ℚ)
    (hent : (g.entries.map Prod.snd).Nodup) :
    ((visits g h).map Prod.fst).Nodup := by
  rw [visits_map_fst]
  exact nodup_flatMap_cellParticles g hent g.keys g.keys_nodup

theorem visits_complete (g : HGrid) (h : ℚ) (pos : Vec2) (pay : Payload)
    (he : (pos, pay) ∈ g.entries) :
    (pay, g.neighbor_cells (cellOf g.cell_size pos) h) ∈ visits g h := by
  rw [mem_visits]
  exact ⟨cellOf g.cell_size pos,
    (g.mem_keys _).2 ⟨(pos, pay), he, rfl⟩,
    (g.mem_cellParticles _ _).2 ⟨pos, he, rfl⟩, rfl⟩

theorem visits_sound (g : HGrid) (h : ℚ) (pay : Payload)
    (nbh : List (Cell × List Payload)) (hv : (pay, nbh) ∈ visits g h) :
    ∃ pos, (pos, pay) ∈ g.entries ∧
      nbh = g.neighbor_cells (cellOf g.cell_size pos) h := by
  obtain ⟨c, _, hpay, rfl⟩ := (mem_visits g h pay nbh).1 hv
  obtain ⟨pos, he, hcell⟩ := (g.mem_cellParticles c pay).1 hpay
  exact ⟨pos, he, by rw [hcell]⟩

theorem mem_nbhPayloads (g : HGrid) (hq : ℚ) (c0 : Cell) (pay : Payload) :
    pay ∈ nbhPayloads (g.neighbor_cells c0 hq) ↔
      ∃ pos o, o ∈ HGrid.cellOffsets ∧ (pos, pay) ∈ g.entries ∧
        cellOf g.cell_size pos = (c0.1 + o.1, c0.2 + o.2) := by
  simp only [nbhPayloads, HGrid.neighbor_cells, List.mem_flatten, List.mem_map,
    List.mem_filterMap]
  constructor
  · rintro ⟨l, ⟨⟨c2, parts⟩, ⟨o, ho, hif⟩, rfl⟩, hpay⟩
    by_cases hk : ((c0.1 + o.1, c0.2 + o.2) : Cell) ∈ g.keys
    · rw [if_pos hk] at hif
      obtain ⟨heq1, heq2⟩ : (c0.1 + o.1, c0.2 + o.2) = c2 ∧ g.cellParticles (c0.1 + o.1, c0.2 + o.2) = parts := by
        constructor
        · exact congrArg Prod.fst (Option.some.inj hif)
        · exact congrArg Prod.snd (Option.some.inj hif)
      rw [← heq2] at hpay
      obtain ⟨pos, he, hcell⟩ := (g.mem_cellParticles _ pay).1 hpay
      exact ⟨pos, o, ho, he, hcell⟩
    · rw [if_neg hk] at hif
      cases hif
  · rintro ⟨pos, o, ho, he, hcell⟩
    have hk : ((c0.1 + o.1, c0.2 + o.2) : Cell) ∈ g.keys :=
      (g.mem_keys _).2 ⟨(pos, pay), he, hcell⟩
    refine ⟨g.cellParticles (c0.1 + o.1, c0.2 + o.2),
      ⟨((c0.1 + o.1, c0.2 + o.2), g.cellParticles (c0.1 + o.1, c0.2 + o.2)),
        ⟨o, ho, by rw [if_pos hk]⟩, rfl⟩, ?_⟩
    exact (g.mem_cellParticles _ pay).2 ⟨pos, he, hcell⟩

theorem nbhPayloads_nodup (g : HGrid) (hq : ℚ) (c0 : Cell)
    (hent : (g.entries.map Prod.snd).Nodup) :
    (nbhPayloads (g.neighbor_cells c0 hq)).Nodup := by
  have heq : nbhPayloads (g.neighbor_cells c0 hq) =
      (HGrid.cellOffsets.filterMap (fun o =>
        if ((c0.1 + o.1, c0.2 + o.2) : Cell) ∈ g.keys
        then some ((c0.1 + o.1, c0.2 + o.2) : Cell) else none)).flatMap
        (fun c => g.cellParticles c) := by
    rw [nbhPayloads, HGrid.neighbor_cells, List.flatMap_def, List.map_filterMap,
      List.map_filterMap]
    congr 1
    apply congrArg (fun f => List.filterMap f HGrid.cellOffsets)
    funext o
    by_cases hk : ((c0.1 + o.1, c0.2 + o.2) : Cell) ∈ g.keys
    · simp [hk]
    · simp [hk]
  rw [heq]
  apply nodup_flatMap_cellParticles g hent
  apply List.Nodup.filterMap
  · intro o1 o2 c hc1 hc2
    have h1 : c = ((c0.1 + o1.1, c0.2 + o1.2) : Cell) := by
      by_cases hk : ((c0.1 + o1.1, c0.2 + o1.2) : Cell) ∈ g.keys
      · rw [if_pos hk] at hc1; exact (Option.mem_some_iff.1 hc1).symm
      · rw [if_neg hk] at hc1; cases hc1
    have h2 : c = ((c0.1 + o2.1, c0.2 + o2.2) : Cell) := by
      by_cases hk : ((c0.1 + o2.1, c0.2 + o2.2) : Cell) ∈ g.keys
      · rw [if_pos hk] at hc2; exact (Option.mem_some_iff.1 hc2).symm
      · rw [if_neg hk] at hc2; cases hc2
    rw [h1] at h2
    have hx : o1.1 = o2.1 := by
      have := congrArg Prod.fst h2
      simpa using this
    have hy : o1.2 = o2.2 := by
      have := congrArg Prod.snd h2
      simpa using this
    exact Prod.ext hx hy
  · decide

/-!
## Geometry: the 3 x 3 neighborhood never misses a pair within h
-/

theorem distSq_expand (a b : Vec2) :
    distSq a b = (a.x - b.x) * (a.x - b.x) + (a.y - b.y) * (a.y - b.y) := by
  simp [distSq, Vec2.normSq, Vec2.dot, Vec2.sub_def]

theorem distSq_self (a : Vec2) : distSq a a = 0 := by
  simp [distSq_expand]

theorem abs_le_of_sq_le (x c : ℚ) (hc : 0 ≤ c) (hx : x * x ≤ c * c) : |x| ≤ c := by
  rcases abs_cases x with ⟨hax, _⟩ | ⟨hax, _⟩ <;> nlinarith [abs_nonneg x]

theorem floor_near (cs : ℚ) (hcs : 0 < cs) (u v : ℚ) (hb : |u - v| ≤ cs) :
    (⌊u / cs⌋ - ⌊v / cs⌋).natAbs ≤ 1 := by
  rcases abs_le.1 hb with ⟨h1, h2⟩
  have key : ∀ a b : ℚ, a - b ≤ cs → ⌊a / cs⌋ ≤ ⌊b / cs⌋ + 1 := by
    intro a b hab
    have h4 : a / cs ≤ (b + cs) / cs :=
      div_le_div_of_nonneg_right (by linarith) (le_of_lt hcs)
    rw [add_div, div_self (ne_of_gt hcs)] at h4
    calc ⌊a / cs⌋ ≤ ⌊b / cs + 1⌋ := Int.floor_le_floor h4
      _ = ⌊b / cs⌋ + 1 := Int.floor_add_one _
  have k1 := key u v h2
  have k2 := key v u (by linarith)
  omega

theorem mem_cellOffsets (o : Cell) (h1 : o.1.natAbs ≤ 1) (h2 : o.2.natAbs ≤ 1) :
    o ∈ HGrid.cellOffsets := by
  rcases o with ⟨a, b⟩
  simp only at h1 h2
  have ha : a = -1 ∨ a = 0 ∨ a = 1 := by omega
  have hb : b = -1 ∨ b = 0 ∨ b = 1 := by omega
  rcases ha with rfl | rfl | rfl <;> rcases hb with rfl | rfl | rfl <;> decide

theorem cellOf_near (cs : ℚ) (hcs : 0 < cs) (a b : Vec2)
    (hd : distSq a b ≤ cs * cs) :
    ∃ o ∈ HGrid.cellOffsets,
      cellOf cs b = ((cellOf cs a).1 + o.1, (cellOf cs a).2 + o.2) := by
  rw [distSq_expand] at hd
  have hx : |b.x - a.x| ≤ cs := by
    apply abs_le_of_sq_le _ _ (le_of_lt hcs)
    nlinarith [sq_nonneg (a.y - b.y)]
  have hy : |b.y - a.y| ≤ cs := by
    apply abs_le_of_sq_le _ _ (le_of_lt hcs)
    nlinarith [sq_nonneg (a.x - b.x)]
  have hox := floor_near cs hcs b.x a.x hx
  have hoy := floor_near cs hcs b.y a.y hy
  refine ⟨(⌊b.x / cs⌋ - ⌊a.x / cs⌋, ⌊b.y / cs⌋ - ⌊a.y / cs⌋),
    mem_cellOffsets _ hox hoy, ?_⟩
  simp only [cellOf, Prod.mk.injEq]
  omega

/-!
## The resize phase
-/

theorem listResize_length {α : Type} (l : List α) (n : ℕ) (v : α) :
    (listResize l n v).length = n := by
  simp [listResize]
  omega

theorem resizeRanges_length (counts : List ℕ) (pcs : List ParticlesContacts) :
    (resizeRanges counts pcs).length = pcs.length := by
  simp [resizeRanges, List.length_zipWith]
  omega

theorem resizeRanges_getD (counts : List ℕ) (pcs : List ParticlesContacts)
    (m : ℕ) (hm : m < counts.length) (hm2 : m < pcs.length) :
    (resizeRanges counts pcs).getD m ParticlesContacts.new =
      { pcs.getD m ParticlesContacts.new with
        contact_ranges :=
          listResize ((pcs.getD m ParticlesContacts.new).contact_ranges)
            (counts.getD m 0) (0, 0) } := by
  have hzip : m < (List.zipWith
      (fun n pc => { pc with contact_ranges := listResize pc.contact_ranges n (0, 0) })
      counts pcs).length := by
    rw [List.length_zipWith]
    exact lt_min hm hm2
  rw [resizeRanges,
    getD_eq_getElem_of_lt _ _ (by simp only [List.length_append]; omega),
    List.getElem_append_left hzip, List.getElem_zipWith,
    getD_eq_getElem_of_lt _ _ hm, getD_eq_getElem_of_lt _ _ hm2]

theorem getD_map_numPF (fluids : List Fluid) (m : ℕ) (hm : m < fluids.length) :
    (fluids.map Fluid.num_particles).getD m 0 = numPF fluids m := by
  rw [getD_eq_getElem_of_lt _ _ (by simpa using hm), List.getElem_map, numPF,
    getD_eq_getElem_of_lt _ _ hm]

theorem getD_map_numPB (boundaries : List Boundary) (m : ℕ)
    (hm : m < boundaries.length) :
    (boundaries.map Boundary.num_particles).getD m 0 = numPB boundaries m := by
  rw [getD_eq_getElem_of_lt _ _ (by simpa using hm), List.getElem_map, numPB,
    getD_eq_getElem_of_lt _ _ hm]

/-!
## The cell loop as a fold over visits
-/

/-- One visit of the cell loop, dispatching on the particle kind exactly as
the loop body of compute_contacts does. -/
def stepVisit (h : ℚ) (fluids : List Fluid) (boundaries : List Boundary)
    (fluid_delta_pos : Option (List (List Vec2))) (st : ContactLists)
    (v : Payload × List (Cell × List Payload)) : ContactLists :=
  if v.1.2.2 then
    { st with bb := visitBoundary h boundaries v.2 st.bb v.1.1 v.1.2.1 }
  else
    let r := visitFluid h fluids boundaries fluid_delta_pos v.2 st.ff st.fb
      v.1.1 v.1.2.1
    { st with ff := r.1, fb := r.2 }

theorem compute_contacts_eq_foldVisits (h : ℚ) (fluids : List Fluid)
    (boundaries : List Boundary) (fluid_delta_pos : Option (List (List Vec2)))
    (ff0 fb0 bb0 : List ParticlesContacts) :
    compute_contacts h fluids boundaries fluid_delta_pos ff0 fb0 bb0 =
      (visits (buildGrid h fluids boundaries fluid_delta_pos) h).foldl
        (stepVisit h fluids boundaries fluid_delta_pos)
        ⟨resizeRanges (fluids.map Fluid.num_particles)
           (listResize ff0 fluids.length ParticlesContacts.new),
         resizeRanges (fluids.map Fluid.num_particles)
           (listResize fb0 fluids.length ParticlesContacts.new),
         resizeRanges (boundaries.map Boundary.num_particles)
           (listResize bb0 boundaries.length ParticlesContacts.new)⟩ := by
  simp only [compute_contacts, visits]
  rw [List.flatMap_def, List.foldl_flatten, List.foldl_map]
  simp only [List.foldl_map, stepVisit]

/-- Every visit of the loop names a model index and particle index that are
in bounds for its kind. -/
def ValidVisits (fluids : List Fluid) (boundaries : List Boundary)
    (V : List (Payload × List (Cell × List Payload))) : Prop :=
  ∀ v ∈ V,
    (v.1.2.2 = true → v.1.1 < boundaries.length ∧ v.1.2.1 < numPB boundaries v.1.1)
    ∧ (v.1.2.2 = false → v.1.1 < fluids.length ∧ v.1.2.1 < numPF fluids v.1.1)

/-- The loop invariant: the three collections have the model counts as
lengths and each list's contact_ranges has its owner's particle count. -/
def RangesOK (fluids : List Fluid) (boundaries : List Boundary)
    (st : ContactLists) : Prop :=
  st.ff.length = fluids.length ∧ st.fb.length = fluids.length ∧
  st.bb.length = boundaries.length ∧
  (∀ m, m < fluids.length →
    (st.ff.getD m ParticlesContacts.new).contact_ranges.length = numPF fluids m) ∧
  (∀ m, m < fluids.length →
    (st.fb.getD m ParticlesContacts.new).contact_ranges.length = numPF fluids m) ∧
  (∀ m, m < boundaries.length →
    (st.bb.getD m ParticlesContacts.new).contact_ranges.length = numPB boundaries m)

theorem appendWith_ranges_length (pc : ParticlesContacts) (p : ℕ)
    (ms : List Contact) :
    (appendWith pc p ms).contact_ranges.length = pc.contact_ranges.length := by
  simp [appendWith]

theorem getD_set_cases {α : Type} (l : List α) (i j : ℕ) (x d : α) (hi : i < l.length) :
    (l.set i x).getD j d = if i = j then x else l.getD j d := by
  by_cases hij : i = j
  · subst hij
    rw [if_pos rfl]
    exact getD_set_self _ _ hi
  · rw [if_neg hij]
    exact getD_set_ne _ _ hij

theorem stepVisit_rangesOK (h : ℚ) (fluids : List Fluid)
    (boundaries : List Boundary) (fluid_delta_pos : Option (List (List Vec2)))
    (st : ContactLists) (v : Payload × List (Cell × List Payload))
    (hok : RangesOK fluids boundaries st)
    (hv : (v.1.2.2 = true → v.1.1 < boundaries.length ∧
             v.1.2.1 < numPB boundaries v.1.1)
        ∧ (v.1.2.2 = false → v.1.1 < fluids.length ∧
             v.1.2.1 < numPF fluids v.1.1)) :
    RangesOK fluids boundaries
      (stepVisit h fluids boundaries fluid_delta_pos st v) := by
  obtain ⟨hl1, hl2, hl3, hr1, hr2, hr3⟩ := hok
  rw [stepVisit]
  cases hkind : v.1.2.2 with
  | true =>
    obtain ⟨hmb, hpb⟩ := hv.1 hkind
    rw [if_pos rfl]
    have hp : v.1.2.1 < (st.bb.getD v.1.1 ParticlesContacts.new).contact_ranges.length := by
      rw [hr3 v.1.1 hmb]; exact hpb
    rw [visitBoundary_eq _ _ _ _ _ _ hp]
    refine ⟨hl1, hl2, by simpa using hl3, hr1, hr2, ?_⟩
    intro m hm
    rw [getD_set_cases _ _ _ _ _ (by omega)]
    by_cases hmm : v.1.1 = m
    · rw [if_pos hmm, appendWith_ranges_length, ← hmm]
      rw [hr3 v.1.1 hmb, hmm]
    · rw [if_neg hmm]
      exact hr3 m hm
  | false =>
    obtain ⟨hmf, hpf⟩ := hv.2 hkind
    rw [if_neg (by simp [hkind])]
    have hp1 : v.1.2.1 < (st.ff.getD v.1.1 ParticlesContacts.new).contact_ranges.length := by
      rw [hr1 v.1.1 hmf]; exact hpf
    have hp2 : v.1.2.1 < (st.fb.getD v.1.1 ParticlesContacts.new).contact_ranges.length := by
      rw [hr2 v.1.1 hmf]; exact hpf
    rw [visitFluid_eq _ _ _ _ _ _ _ _ _ hp1 hp2]
    refine ⟨by simpa using hl1, by simpa using hl2, hl3, ?_, ?_, hr3⟩
    · intro m hm
      rw [getD_set_cases _ _ _ _ _ (by omega)]
      by_cases hmm : v.1.1 = m
      · rw [if_pos hmm, appendWith_ranges_length, ← hmm]
        rw [hr1 v.1.1 hmf, hmm]
      · rw [if_neg hmm]
        exact hr1 m hm
    · intro m hm
      rw [getD_set_cases _ _ _ _ _ (by omega)]
      by_cases hmm : v.1.1 = m
      · rw [if_pos hmm, appendWith_ranges_length, ← hmm]
        rw [hr2 v.1.1 hmf, hmm]
      · rw [if_neg hmm]
        exact hr2 m hm

theorem foldVisits_rangesOK (h : ℚ) (fluids : List Fluid)
    (boundaries : List Boundary) (fluid_delta_pos : Option (List (List Vec2))) :
    ∀ (V : List (Payload × List (Cell × List Payload))) (st : ContactLists),
    ValidVisits fluids boundaries V → RangesOK fluids boundaries st →
    RangesOK fluids boundaries
      (V.foldl (stepVisit h fluids boundaries fluid_delta_pos) st) := by
  intro V
  induction V with
  | nil => intro st _ hok; exact hok
  | cons v rest ih =>
    intro st hval hok
    rw [List.foldl_cons]
    exact ih _ (fun w hw => hval w (List.mem_cons_of_mem v hw))
      (stepVisit_rangesOK _ _ _ _ _ _ hok (hval v (List.mem_cons_self v rest)))

/-- The records (particle, match list) the loop produces for the
boundary-boundary list of boundary model m, in visit order. -/
def recsBB (h : ℚ) (boundaries : List Boundary) (m : ℕ)
    (V : List (Payload × List (Cell × List Payload))) : List (ℕ × List Contact) :=
  V.filterMap (fun v =>
    if v.1.2.2 = true ∧ v.1.1 = m then
      some (v.1.2.1, (nbhPayloads v.2).filterMap (bbDecide h boundaries m v.1.2.1))
    else none)

/-- The records for the fluid-fluid list of fluid model m, in visit order. -/
def recsFF (h : ℚ) (fluids : List Fluid)
    (fluid_delta_pos : Option (List (List Vec2))) (m : ℕ)
    (V : List (Payload × List (Cell × List Payload))) : List (ℕ × List Contact) :=
  V.filterMap (fun v =>
    if v.1.2.2 = false ∧ v.1.1 = m then
      some (v.1.2.1,
        (nbhPayloads v.2).filterMap (ffDecide h fluids fluid_delta_pos m v.1.2.1))
    else none)

/-- The records for the fluid-boundary list of fluid model m, in visit order. -/
def recsFB (h : ℚ) (fluids : List Fluid) (boundaries : List Boundary)
    (fluid_delta_pos : Option (List (List Vec2))) (m : ℕ)
    (V : List (Payload × List (Cell × List Payload))) : List (ℕ × List Contact) :=
  V.filterMap (fun v =>
    if v.1.2.2 = false ∧ v.1.1 = m then
      some (v.1.2.1,
        (nbhPayloads v.2).filterMap
          (fbDecide h fluids boundaries fluid_delta_pos m v.1.2.1))
    else none)

theorem foldVisits_bb (h : ℚ) (fluids : List Fluid) (boundaries : List Boundary)
    (fluid_delta_pos : Option (List (List Vec2))) (m : ℕ)
    (hm : m < boundaries.length) :
    ∀ (V : List (Payload × List (Cell × List Payload))) (st : ContactLists),
    ValidVisits fluids boundaries V → RangesOK fluids boundaries st →
    ((V.foldl (stepVisit h fluids boundaries fluid_delta_pos) st).bb.getD m
        ParticlesContacts.new)
      = processRecs (st.bb.getD m ParticlesContacts.new)
          (recsBB h boundaries m V) := by
  intro V
  induction V with
  | nil => intro st _ _; rfl
  | cons v rest ih =>
    intro st hval hok
    have hvalv := hval v (List.mem_cons_self v rest)
    have hvalrest : ValidVisits fluids boundaries rest :=
      fun w hw => hval w (List.mem_cons_of_mem v hw)
    have hok2 := stepVisit_rangesOK h fluids boundaries fluid_delta_pos st v hok hvalv
    rw [List.foldl_cons, recsBB, List.filterMap_cons]
    cases hkind : v.1.2.2 with
    | false =>
      rw [if_neg (by simp [hkind])]
      have hstep : (stepVisit h fluids boundaries fluid_delta_pos st v).bb = st.bb := by
        rw [stepVisit, if_neg (by simp [hkind])]
      rw [← recsBB, ih _ hvalrest hok2, hstep]
    | true =>
      obtain ⟨hmb, hpb⟩ := hvalv.1 hkind
      have hp : v.1.2.1 <
          (st.bb.getD v.1.1 ParticlesContacts.new).contact_ranges.length := by
        rw [hok.2.2.2.2.2 v.1.1 hmb]; exact hpb
      have hstep : (stepVisit h fluids boundaries fluid_delta_pos st v).bb =
          st.bb.set v.1.1 (appendWith (st.bb.getD v.1.1 ParticlesContacts.new)
            v.1.2.1 ((nbhPayloads v.2).filterMap
              (bbDecide h boundaries v.1.1 v.1.2.1))) := by
        rw [stepVisit, if_pos (by simp [hkind])]
        exact visitBoundary_eq _ _ _ _ _ _ hp
      by_cases hmm : v.1.1 = m
      · subst hmm
        rw [if_pos ⟨rfl, rfl⟩, ← recsBB, ih _ hvalrest hok2, hstep]
        rw [processRecs_cons_mk]
        congr 1
        exact getD_set_self _ _ (by rw [hok.2.2.1]; exact hmb)
      · rw [if_neg (by simp [hmm]), ← recsBB, ih _ hvalrest hok2, hstep]
        congr 1
        exact getD_set_ne _ _ hmm

theorem foldVisits_ff (h : ℚ) (fluids : List Fluid) (boundaries : List Boundary)
    (fluid_delta_pos : Option (List (List Vec2))) (m : ℕ)
    (hm : m < fluids.length) :
    ∀ (V : List (Payload × List (Cell × List Payload))) (st : ContactLists),
    ValidVisits fluids boundaries V → RangesOK fluids boundaries st →
    ((V.foldl (stepVisit h fluids boundaries fluid_delta_pos) st).ff.getD m
        ParticlesContacts.new)
      = processRecs (st.ff.getD m ParticlesContacts.new)
          (recsFF h fluids fluid_delta_pos m V) := by
  intro V
  induction V with
  | nil => intro st _ _; rfl
  | cons v rest ih =>
    intro st hval hok
    have hvalv := hval v (List.mem_cons_self v rest)
    have hvalrest : ValidVisits fluids boundaries rest :=
      fun w hw => hval w (List.mem_cons_of_mem v hw)
    have hok2 := stepVisit_rangesOK h fluids boundaries fluid_delta_pos st v hok hvalv
    rw [List.foldl_cons, recsFF, List.filterMap_cons]
    cases hkind : v.1.2.2 with
    | true =>
      rw [if_neg (by simp)]
      have hstep : (stepVisit h fluids boundaries fluid_delta_pos st v).ff = st.ff := by
        rw [stepVisit, if_pos (by simp [hkind])]
      rw [← recsFF, ih _ hvalrest hok2, hstep]
    | false =>
      obtain ⟨hmf, hpf⟩ := hvalv.2 hkind
      have hp1 : v.1.2.1 <
          (st.ff.getD v.1.1 ParticlesContacts.new).contact_ranges.length := by
        rw [hok.2.2.2.1 v.1.1 hmf]; exact hpf
      have hp2 : v.1.2.1 <
          (st.fb.getD v.1.1 ParticlesContacts.new).contact_ranges.length := by
        rw [hok.2.2.2.2.1 v.1.1 hmf]; exact hpf
      have hstep : (stepVisit h fluids boundaries fluid_delta_pos st v).ff =
          st.ff.set v.1.1 (appendWith (st.ff.getD v.1.1 ParticlesContacts.new)
            v.1.2.1 ((nbhPayloads v.2).filterMap
              (ffDecide h fluids fluid_delta_pos v.1.1 v.1.2.1))) := by
        rw [stepVisit, if_neg (by simp [hkind]),
          visitFluid_eq _ _ _ _ _ _ _ _ _ hp1 hp2]
      by_cases hmm : v.1.1 = m
      · subst hmm
        rw [if_pos ⟨rfl, rfl⟩, ← recsFF, ih _ hvalrest hok2, hstep]
        rw [processRecs_cons_mk]
        congr 1
        exact getD_set_self _ _ (by rw [hok.1]; exact hmf)
      · rw [if_neg (by simp [hmm]), ← recsFF, ih _ hvalrest hok2, hstep]
        congr 1
        exact getD_set_ne _ _ hmm

theorem foldVisits_fb (h : ℚ) (fluids : List Fluid) (boundaries : List Boundary)
    (fluid_delta_pos : Option (List (List Vec2))) (m : ℕ)
    (hm : m < fluids.length) :
    ∀ (V : List (Payload × List (Cell × List Payload))) (st : ContactLists),
    ValidVisits fluids boundaries V → RangesOK fluids boundaries st →
    ((V.foldl (stepVisit h fluids boundaries fluid_delta_pos) st).fb.getD m
        ParticlesContacts.new)
      = processRecs (st.fb.getD m ParticlesContacts.new)
          (recsFB h fluids boundaries fluid_delta_pos m V) := by
  intro V
  induction V with
  | nil => intro st _ _; rfl
  | cons v rest ih =>
    intro st hval hok
    have hvalv := hval v (List.mem_cons_self v rest)
    have hvalrest : ValidVisits fluids boundaries rest :=
      fun w hw => hval w (List.mem_cons_of_mem v hw)
    have hok2 := stepVisit_rangesOK h fluids boundaries fluid_delta_pos st v hok hvalv
    rw [List.foldl_cons, recsFB, List.filterMap_cons]
    cases hkind : v.1.2.2 with
    | true =>
      rw [if_neg (by simp)]
      have hstep : (stepVisit h fluids boundaries fluid_delta_pos st v).fb = st.fb := by
        rw [stepVisit, if_pos (by simp [hkind])]
      rw [← recsFB, ih _ hvalrest hok2, hstep]
    | false =>
      obtain ⟨hmf, hpf⟩ := hvalv.2 hkind
      have hp1 : v.1.2.1 <
          (st.ff.getD v.1.1 ParticlesContacts.new).contact_ranges.length := by
        rw [hok.2.2.2.1 v.1.1 hmf]; exact hpf
      have hp2 : v.1.2.1 <
          (st.fb.getD v.1.1 ParticlesContacts.new).contact_ranges.length := by
        rw [hok.2.2.2.2.1 v.1.1 hmf]; exact hpf
      have hstep : (stepVisit h fluids boundaries fluid_delta_pos st v).fb =
          st.fb.set v.1.1 (appendWith (st.fb.getD v.1.1 ParticlesContacts.new)
            v.1.2.1 ((nbhPayloads v.2).filterMap
              (fbDecide h fluids boundaries fluid_delta_pos v.1.1 v.1.2.1))) := by
        rw [stepVisit, if_neg (by simp [hkind]),
          visitFluid_eq _ _ _ _ _ _ _ _ _ hp1 hp2]
      by_cases hmm : v.1.1 = m
      · subst hmm
        rw [if_pos ⟨rfl, rfl⟩, ← recsFB, ih _ hvalrest hok2, hstep]
        rw [processRecs_cons_mk]
        congr 1
        exact getD_set_self _ _ (by rw [hok.2.1]; exact hmf)
      · rw [if_neg (by simp [hmm]), ← recsFB, ih _ hvalrest hok2, hstep]
        congr 1
        exact getD_set_ne _ _ hmm

theorem validVisits_buildGrid (h : ℚ) (fluids : List Fluid)
    (boundaries : List Boundary) (fluid_delta_pos : Option (List (List Vec2))) :
    ValidVisits fluids boundaries
      (visits (buildGrid h fluids boundaries fluid_delta_pos) h) := by
  rintro ⟨pay, nbh⟩ hv
  obtain ⟨pos, he, -⟩ := visits_sound _ _ _ _ hv
  rw [mem_buildGrid_entries] at he
  rcases he with ⟨m, i, hm, hi, heq⟩ | ⟨m, i, hm, hi, heq⟩
  · have hpay : pay = (m, i, false) := congrArg Prod.snd heq
    subst hpay
    exact ⟨fun hc => Bool.noConfusion hc, fun _ => ⟨hm, hi⟩⟩
  · have hpay : pay = (m, i, true) := congrArg Prod.snd heq
    subst hpay
    exact ⟨fun _ => ⟨hm, hi⟩, fun hc => Bool.noConfusion hc⟩

theorem filterMap_fst_nodup (V : List (Payload × List (Cell × List Payload)))
    (hnd : (V.map Prod.fst).Nodup) (F : Payload → Option ℕ)
    (hinj : ∀ pay pay2 p, F pay = some p → F pay2 = some p → pay = pay2)
    (G : Payload × List (Cell × List Payload) → Option (ℕ × List Contact))
    (hG : ∀ v, (G v).map Prod.fst = F v.1) :
    ((V.filterMap G).map Prod.fst).Nodup := by
  rw [List.map_filterMap]
  have heq : V.filterMap (fun v => (G v).map Prod.fst) =
      (V.map Prod.fst).filterMap F := by
    rw [List.filterMap_map]
    apply congrArg (fun f => List.filterMap f V)
    funext v
    exact hG v
  rw [heq]
  exact List.Nodup.filterMap
    (fun pay pay2 p hp hp2 =>
      hinj pay pay2 p (Option.mem_def.1 hp) (Option.mem_def.1 hp2)) hnd

theorem payload_of_ifsome (kind : Bool) (m : ℕ) (pay : Payload) (p : ℕ)
    (hp : (if pay.2.2 = kind ∧ pay.1 = m then some pay.2.1 else none) = some p) :
    pay = (m, p, kind) := by
  by_cases hc : pay.2.2 = kind ∧ pay.1 = m
  · rcases pay with ⟨a, b, k⟩
    rw [if_pos hc] at hp
    exact Prod.ext (by exact hc.2)
      (Prod.ext (by exact Option.some.inj hp) (by exact hc.1))
  · rw [if_neg hc] at hp
    cases hp

theorem recs_fst_nodup (V : List (Payload × List (Cell × List Payload)))
    (hnd : (V.map Prod.fst).Nodup) (kind : Bool) (m : ℕ)
    (MS : Payload × List (Cell × List Payload) → List Contact) :
    ((V.filterMap (fun v =>
        if v.1.2.2 = kind ∧ v.1.1 = m then some (v.1.2.1, MS v) else none)).map
      Prod.fst).Nodup := by
  apply filterMap_fst_nodup V hnd
    (fun pay => if pay.2.2 = kind ∧ pay.1 = m then some pay.2.1 else none)
  · intro pay pay2 p hp hp2
    rw [payload_of_ifsome kind m pay p hp, payload_of_ifsome kind m pay2 p hp2]
  · intro v
    by_cases hc : v.1.2.2 = kind ∧ v.1.1 = m
    · rw [if_pos hc, if_pos hc]
      rfl
    · rw [if_neg hc, if_neg hc]
      rfl

theorem recsBB_fst_nodup (h : ℚ) (fluids : List Fluid)
    (boundaries : List Boundary) (fluid_delta_pos : Option (List (List Vec2)))
    (m : ℕ) :
    ((recsBB h boundaries m
        (visits (buildGrid h fluids boundaries fluid_delta_pos) h)).map
      Prod.fst).Nodup := by
  rw [recsBB]
  exact recs_fst_nodup _ (visits_fst_nodup _ _
    (buildGrid_payloads_nodup h fluids boundaries fluid_delta_pos)) true m _

theorem recsFF_fst_nodup (h : ℚ) (fluids : List Fluid)
    (boundaries : List Boundary) (fluid_delta_pos : Option (List (List Vec2)))
    (m : ℕ) :
    ((recsFF h fluids fluid_delta_pos m
        (visits (buildGrid h fluids boundaries fluid_delta_pos) h)).map
      Prod.fst).Nodup := by
  rw [recsFF]
  exact recs_fst_nodup _ (visits_fst_nodup _ _
    (buildGrid_payloads_nodup h fluids boundaries fluid_delta_pos)) false m _

theorem recsFB_fst_nodup (h : ℚ) (fluids : List Fluid)
    (boundaries : List Boundary) (fluid_delta_pos : Option (List (List Vec2)))
    (m : ℕ) :
    ((recsFB h fluids boundaries fluid_delta_pos m
        (visits (buildGrid h fluids boundaries fluid_delta_pos) h)).map
      Prod.fst).Nodup := by
  rw [recsFB]
  exact recs_fst_nodup _ (visits_fst_nodup _ _
    (buildGrid_payloads_nodup h fluids boundaries fluid_delta_pos)) false m _

/-- The match list the loop computes for boundary particle (m, p): every
boundary payload of the neighbor cells of p's cell that passes the distance
test, in scan order. -/
def bbMatchesOf (h : ℚ) (fluids : List Fluid) (boundaries : List Boundary)
    (fluid_delta_pos : Option (List (List Vec2))) (m p : ℕ) : List Contact :=
  (nbhPayloads ((buildGrid h fluids boundaries fluid_delta_pos).neighbor_cells
      (cellOf h (bPos boundaries m p)) h)).filterMap (bbDecide h boundaries m p)

/-- The fluid-fluid match list the loop computes for fluid particle (m, p). -/
def ffMatchesOf (h : ℚ) (fluids : List Fluid) (boundaries : List Boundary)
    (fluid_delta_pos : Option (List (List Vec2))) (m p : ℕ) : List Contact :=
  (nbhPayloads ((buildGrid h fluids boundaries fluid_delta_pos).neighbor_cells
      (cellOf h (fPos fluids fluid_delta_pos m p)) h)).filterMap
    (ffDecide h fluids fluid_delta_pos m p)

/-- The fluid-boundary match list the loop computes for fluid particle (m, p). -/
def fbMatchesOf (h : ℚ) (fluids : List Fluid) (boundaries : List Boundary)
    (fluid_delta_pos : Option (List (List Vec2))) (m p : ℕ) : List Contact :=
  (nbhPayloads ((buildGrid h fluids boundaries fluid_delta_pos).neighbor_cells
      (cellOf h (fPos fluids fluid_delta_pos m p)) h)).filterMap
    (fbDecide h fluids boundaries fluid_delta_pos m p)

theorem recsBB_mem (h : ℚ) (fluids : List Fluid) (boundaries : List Boundary)
    (fluid_delta_pos : Option (List (List Vec2))) (m p : ℕ)
    (hm : m < boundaries.length) (hp : p < numPB boundaries m) :
    (p, bbMatchesOf h fluids boundaries fluid_delta_pos m p) ∈
      recsBB h boundaries m
        (visits (buildGrid h fluids boundaries fluid_delta_pos) h) := by
  rw [recsBB, List.mem_filterMap]
  refine ⟨((m, p, true),
    (buildGrid h fluids boundaries fluid_delta_pos).neighbor_cells
      (cellOf (buildGrid h fluids boundaries fluid_delta_pos).cell_size
        (bPos boundaries m p)) h), ?_, ?_⟩
  · apply visits_complete
    rw [mem_buildGrid_entries]
    exact Or.inr ⟨m, p, hm, hp, rfl⟩
  · rw [if_pos ⟨rfl, rfl⟩, bbMatchesOf, buildGrid_cell_size]

theorem recsFF_mem (h : ℚ) (fluids : List Fluid) (boundaries : List Boundary)
    (fluid_delta_pos : Option (List (List Vec2))) (m p : ℕ)
    (hm : m < fluids.length) (hp : p < numPF fluids m) :
    (p, ffMatchesOf h fluids boundaries fluid_delta_pos m p) ∈
      recsFF h fluids fluid_delta_pos m
        (visits (buildGrid h fluids boundaries fluid_delta_pos) h) := by
  rw [recsFF, List.mem_filterMap]
  refine ⟨((m, p, false),
    (buildGrid h fluids boundaries fluid_delta_pos).neighbor_cells
      (cellOf (buildGrid h fluids boundaries fluid_delta_pos).cell_size
        (fPos fluids fluid_delta_pos m p)) h), ?_, ?_⟩
  · apply visits_complete
    rw [mem_buildGrid_entries]
    exact Or.inl ⟨m, p, hm, hp, rfl⟩
  · rw [if_pos ⟨rfl, rfl⟩, ffMatchesOf, buildGrid_cell_size]

theorem recsFB_mem (h : ℚ) (fluids : List Fluid) (boundaries : List Boundary)
    (fluid_delta_pos : Option (List (List Vec2))) (m p : ℕ)
    (hm : m < fluids.length) (hp : p < numPF fluids m) :
    (p, fbMatchesOf h fluids boundaries fluid_delta_pos m p) ∈
      recsFB h fluids boundaries fluid_delta_pos m
        (visits (buildGrid h fluids boundaries fluid_delta_pos) h) := by
  rw [recsFB, List.mem_filterMap]
  refine ⟨((m, p, false),
    (buildGrid h fluids boundaries fluid_delta_pos).neighbor_cells
      (cellOf (buildGrid h fluids boundaries fluid_delta_pos).cell_size
        (fPos fluids fluid_delta_pos m p)) h), ?_, ?_⟩
  · apply visits_complete
    rw [mem_buildGrid_entries]
    exact Or.inl ⟨m, p, hm, hp, rfl⟩
  · rw [if_pos ⟨rfl, rfl⟩, fbMatchesOf, buildGrid_cell_size]

theorem bbDecide_some (h : ℚ) (boundaries : List Boundary) (m p : ℕ)
    (pay : Payload) (c : Contact) :
    bbDecide h boundaries m p pay = some c ↔
      ∃ m2 p2, pay = (m2, p2, true) ∧ c = ⟨p, m, p2, m2, 0, Vec2.zero⟩ ∧
        distSq (bPos boundaries m p) (bPos boundaries m2 p2) ≤ h * h := by
  rcases pay with ⟨m2, p2, kind⟩
  cases kind
  · simp [bbDecide]
  · by_cases hd : distSq (bPos boundaries m p) (bPos boundaries m2 p2) ≤ h * h
    · simp only [bbDecide, if_true, if_pos hd, Option.some.injEq]
      constructor
      · rintro rfl
        exact ⟨m2, p2, rfl, rfl, hd⟩
      · rintro ⟨m3, p3, hpay, rfl, -⟩
        have h1 : m2 = m3 := congrArg (fun q : Payload => q.1) hpay
        have h2 : p2 = p3 := congrArg (fun q : Payload => q.2.1) hpay
        rw [h1, h2]
    · simp only [bbDecide, if_true, if_neg hd]
      constructor
      · rintro hc; cases hc
      · rintro ⟨m3, p3, hpay, rfl, hd2⟩
        have h1 : m2 = m3 := congrArg (fun q : Payload => q.1) hpay
        have h2 : p2 = p3 := congrArg (fun q : Payload => q.2.1) hpay
        rw [h1, h2] at hd
        exact absurd hd2 hd

theorem ffDecide_some (h : ℚ) (fluids : List Fluid)
    (fluid_delta_pos : Option (List (List Vec2))) (m p : ℕ)
    (pay : Payload) (c : Contact) :
    ffDecide h fluids fluid_delta_pos m p pay = some c ↔
      ∃ m2 p2, pay = (m2, p2, false) ∧ c = ⟨p, m, p2, m2, 0, Vec2.zero⟩ ∧
        distSq (fPos fluids fluid_delta_pos m p)
          (fPos fluids fluid_delta_pos m2 p2) ≤ h * h := by
  rcases pay with ⟨m2, p2, kind⟩
  cases kind
  · by_cases hd : distSq (fPos fluids fluid_delta_pos m p)
        (fPos fluids fluid_delta_pos m2 p2) ≤ h * h
    · simp only [ffDecide, if_true, if_pos hd, Option.some.injEq]
      constructor
      · rintro rfl
        exact ⟨m2, p2, rfl, rfl, hd⟩
      · rintro ⟨m3, p3, hpay, rfl, -⟩
        have h1 : m2 = m3 := congrArg (fun q : Payload => q.1) hpay
        have h2 : p2 = p3 := congrArg (fun q : Payload => q.2.1) hpay
        rw [h1, h2]
    · simp only [ffDecide, if_true, if_neg hd]
      constructor
      · rintro hc; cases hc
      · rintro ⟨m3, p3, hpay, rfl, hd2⟩
        have h1 : m2 = m3 := congrArg (fun q : Payload => q.1) hpay
        have h2 : p2 = p3 := congrArg (fun q : Payload => q.2.1) hpay
        rw [h1, h2] at hd
        exact absurd hd2 hd
  · simp [ffDecide]

theorem fbDecide_some (h : ℚ) (fluids : List Fluid) (boundaries : List Boundary)
    (fluid_delta_pos : Option (List (List Vec2))) (m p : ℕ)
    (pay : Payload) (c : Contact) :
    fbDecide h fluids boundaries fluid_delta_pos m p pay = some c ↔
      ∃ m2 p2, pay = (m2, p2, true) ∧ c = ⟨p, m, p2, m2, 0, Vec2.zero⟩ ∧
        distSq (fPos fluids fluid_delta_pos m p)
          (bPos boundaries m2 p2) ≤ h * h := by
  rcases pay with ⟨m2, p2, kind⟩
  cases kind
  · simp [fbDecide]
  · by_cases hd : distSq (fPos fluids fluid_delta_pos m p)
        (bPos boundaries m2 p2) ≤ h * h
    · simp only [fbDecide, if_true, if_pos hd, Option.some.injEq]
      constructor
      · rintro rfl
        exact ⟨m2, p2, rfl, rfl, hd⟩
      · rintro ⟨m3, p3, hpay, rfl, -⟩
        have h1 : m2 = m3 := congrArg (fun q : Payload => q.1) hpay
        have h2 : p2 = p3 := congrArg (fun q : Payload => q.2.1) hpay
        rw [h1, h2]
    · simp only [fbDecide, if_true, if_neg hd]
      constructor
      · rintro hc; cases hc
      · rintro ⟨m3, p3, hpay, rfl, hd2⟩
        have h1 : m2 = m3 := congrArg (fun q : Payload => q.1) hpay
        have h2 : p2 = p3 := congrArg (fun q : Payload => q.2.1) hpay
        rw [h1, h2] at hd
        exact absurd hd2 hd

theorem payload_entry_boundary (h : ℚ) (fluids : List Fluid)
    (boundaries : List Boundary) (fluid_delta_pos : Option (List (List Vec2)))
    (m2 p2 : ℕ) (pos : Vec2)
    (he : (pos, ((m2, p2, true) : Payload)) ∈
      (buildGrid h fluids boundaries fluid_delta_pos).entries) :
    m2 < boundaries.length ∧ p2 < numPB boundaries m2 ∧
      pos = bPos boundaries m2 p2 := by
  rw [mem_buildGrid_entries] at he
  rcases he with ⟨m3, i3, _, _, heq⟩ | ⟨m3, i3, hm3, hi3, heq⟩
  · have hk := congrArg (fun e : Vec2 × Payload => e.2.2.2) heq
    cases hk
  · have h1 : m2 = m3 := congrArg (fun e : Vec2 × Payload => e.2.1) heq
    have h2 : p2 = i3 := congrArg (fun e : Vec2 × Payload => e.2.2.1) heq
    have h3 : pos = bPos boundaries m3 i3 := congrArg Prod.fst heq
    subst h1
    subst h2
    exact ⟨hm3, hi3, h3⟩

theorem payload_entry_fluid (h : ℚ) (fluids : List Fluid)
    (boundaries : List Boundary) (fluid_delta_pos : Option (List (List Vec2)))
    (m2 p2 : ℕ) (pos : Vec2)
    (he : (pos, ((m2, p2, false) : Payload)) ∈
      (buildGrid h fluids boundaries fluid_delta_pos).entries) :
    m2 < fluids.length ∧ p2 < numPF fluids m2 ∧
      pos = fPos fluids fluid_delta_pos m2 p2 := by
  rw [mem_buildGrid_entries] at he
  rcases he with ⟨m3, i3, hm3, hi3, heq⟩ | ⟨m3, i3, _, _, heq⟩
  · have h1 : m2 = m3 := congrArg (fun e : Vec2 × Payload => e.2.1) heq
    have h2 : p2 = i3 := congrArg (fun e : Vec2 × Payload => e.2.2.1) heq
    have h3 : pos = fPos fluids fluid_delta_pos m3 i3 := congrArg Prod.fst heq
    subst h1
    subst h2
    exact ⟨hm3, hi3, h3⟩
  · have hk := congrArg (fun e : Vec2 × Payload => e.2.2.2) heq
    cases hk

theorem bbMatchesOf_sound (h : ℚ) (fluids : List Fluid)
    (boundaries : List Boundary) (fluid_delta_pos : Option (List (List Vec2)))
    (m p : ℕ) (c : Contact)
    (hc : c ∈ bbMatchesOf h fluids boundaries fluid_delta_pos m p) :
    ∃ m2 p2, m2 < boundaries.length ∧ p2 < numPB boundaries m2 ∧
      c = ⟨p, m, p2, m2, 0, Vec2.zero⟩ ∧
      distSq (bPos boundaries m p) (bPos boundaries m2 p2) ≤ h * h := by
  rw [bbMatchesOf, List.mem_filterMap] at hc
  obtain ⟨pay, hpay, hdec⟩ := hc
  obtain ⟨m2, p2, rfl, rfl, hd⟩ := (bbDecide_some _ _ _ _ _ _).1 hdec
  rw [mem_nbhPayloads] at hpay
  obtain ⟨pos, o, _, he, _⟩ := hpay
  obtain ⟨hm2, hp2, -⟩ :=
    payload_entry_boundary h fluids boundaries fluid_delta_pos m2 p2 pos he
  exact ⟨m2, p2, hm2, hp2, rfl, hd⟩

theorem bbMatchesOf_complete (h : ℚ) (fluids : List Fluid)
    (boundaries : List Boundary) (fluid_delta_pos : Option (List (List Vec2)))
    (m p m2 p2 : ℕ) (hh : 0 < h)
    (hm2 : m2 < boundaries.length) (hp2 : p2 < numPB boundaries m2)
    (hd : distSq (bPos boundaries m p) (bPos boundaries m2 p2) ≤ h * h) :
    (⟨p, m, p2, m2, 0, Vec2.zero⟩ : Contact) ∈
      bbMatchesOf h fluids boundaries fluid_delta_pos m p := by
  rw [bbMatchesOf, List.mem_filterMap]
  refine ⟨(m2, p2, true), ?_, (bbDecide_some _ _ _ _ _ _).2 ⟨m2, p2, rfl, rfl, hd⟩⟩
  rw [mem_nbhPayloads]
  obtain ⟨o, ho, hoeq⟩ :=
    cellOf_near h hh (bPos boundaries m p) (bPos boundaries m2 p2) hd
  refine ⟨bPos boundaries m2 p2, o, ho, ?_, ?_⟩
  · rw [mem_buildGrid_entries]
    exact Or.inr ⟨m2, p2, hm2, hp2, rfl⟩
  · rw [buildGrid_cell_size]
    exact hoeq

theorem bbMatchesOf_self (h : ℚ) (fluids : List Fluid)
    (boundaries : List Boundary) (fluid_delta_pos : Option (List (List Vec2)))
    (m p : ℕ) (hm : m < boundaries.length) (hp : p < numPB boundaries m) :
    (⟨p, m, p, m, 0, Vec2.zero⟩ : Contact) ∈
      bbMatchesOf h fluids boundaries fluid_delta_pos m p := by
  rw [bbMatchesOf, List.mem_filterMap]
  refine ⟨(m, p, true), ?_, (bbDecide_some _ _ _ _ _ _).2
    ⟨m, p, rfl, rfl, by rw [distSq_self]; exact mul_self_nonneg h⟩⟩
  rw [mem_nbhPayloads]
  refine ⟨bPos boundaries m p, (0, 0), by decide, ?_, ?_⟩
  · rw [mem_buildGrid_entries]
    exact Or.inr ⟨m, p, hm, hp, rfl⟩
  · rw [buildGrid_cell_size]
    show cellOf h (bPos boundaries m p) =
      ((cellOf h (bPos boundaries m p)).1 + 0, (cellOf h (bPos boundaries m p)).2 + 0)
    simp

theorem ffMatchesOf_sound (h : ℚ) (fluids : List Fluid)
    (boundaries : List Boundary) (fluid_delta_pos : Option (List (List Vec2)))
    (m p : ℕ) (c : Contact)
    (hc : c ∈ ffMatchesOf h fluids boundaries fluid_delta_pos m p) :
    ∃ m2 p2, m2 < fluids.length ∧ p2 < numPF fluids m2 ∧
      c = ⟨p, m, p2, m2, 0, Vec2.zero⟩ ∧
      distSq (fPos fluids fluid_delta_pos m p)
        (fPos fluids fluid_delta_pos m2 p2) ≤ h * h := by
  rw [ffMatchesOf, List.mem_filterMap] at hc
  obtain ⟨pay, hpay, hdec⟩ := hc
  obtain ⟨m2, p2, rfl, rfl, hd⟩ := (ffDecide_some _ _ _ _ _ _ _).1 hdec
  rw [mem_nbhPayloads] at hpay
  obtain ⟨pos, o, _, he, _⟩ := hpay
  obtain ⟨hm2, hp2, -⟩ :=
    payload_entry_fluid h fluids boundaries fluid_delta_pos m2 p2 pos he
  exact ⟨m2, p2, hm2, hp2, rfl, hd⟩

theorem ffMatchesOf_complete (h : ℚ) (fluids : List Fluid)
    (boundaries : List Boundary) (fluid_delta_pos : Option (List (List Vec2)))
    (m p m2 p2 : ℕ) (hh : 0 < h)
    (hm2 : m2 < fluids.length) (hp2 : p2 < numPF fluids m2)
    (hd : distSq (fPos fluids fluid_delta_pos m p)
      (fPos fluids fluid_delta_pos m2 p2) ≤ h * h) :
    (⟨p, m, p2, m2, 0, Vec2.zero⟩ : Contact) ∈
      ffMatchesOf h fluids boundaries fluid_delta_pos m p := by
  rw [ffMatchesOf, List.mem_filterMap]
  refine ⟨(m2, p2, false), ?_,
    (ffDecide_some _ _ _ _ _ _ _).2 ⟨m2, p2, rfl, rfl, hd⟩⟩
  rw [mem_nbhPayloads]
  obtain ⟨o, ho, hoeq⟩ := cellOf_near h hh (fPos fluids fluid_delta_pos m p)
    (fPos fluids fluid_delta_pos m2 p2) hd
  refine ⟨fPos fluids fluid_delta_pos m2 p2, o, ho, ?_, ?_⟩
  · rw [mem_buildGrid_entries]
    exact Or.inl ⟨m2, p2, hm2, hp2, rfl⟩
  · rw [buildGrid_cell_size]
    exact hoeq

theorem ffMatchesOf_self (h : ℚ) (fluids : List Fluid)
    (boundaries : List Boundary) (fluid_delta_pos : Option (List (List Vec2)))
    (m p : ℕ) (hm : m < fluids.length) (hp : p < numPF fluids m) :
    (⟨p, m, p, m, 0, Vec2.zero⟩ : Contact) ∈
      ffMatchesOf h fluids boundaries fluid_delta_pos m p := by
  rw [ffMatchesOf, List.mem_filterMap]
  refine ⟨(m, p, false), ?_, (ffDecide_some _ _ _ _ _ _ _).2
    ⟨m, p, rfl, rfl, by rw [distSq_self]; exact mul_self_nonneg h⟩⟩
  rw [mem_nbhPayloads]
  refine ⟨fPos fluids fluid_delta_pos m p, (0, 0), by decide, ?_, ?_⟩
  · rw [mem_buildGrid_entries]
    exact Or.inl ⟨m, p, hm, hp, rfl⟩
  · rw [buildGrid_cell_size]
    show cellOf h (fPos fluids fluid_delta_pos m p) =
      ((cellOf h (fPos fluids fluid_delta_pos m p)).1 + 0,
       (cellOf h (fPos fluids fluid_delta_pos m p)).2 + 0)
    simp

theorem fbMatchesOf_sound (h : ℚ) (fluids : List Fluid)
    (boundaries : List Boundary) (fluid_delta_pos : Option (List (List Vec2)))
    (m p : ℕ) (c : Contact)
    (hc : c ∈ fbMatchesOf h fluids boundaries fluid_delta_pos m p) :
    ∃ m2 p2, m2 < boundaries.length ∧ p2 < numPB boundaries m2 ∧
      c = ⟨p, m, p2, m2, 0, Vec2.zero⟩ ∧
      distSq (fPos fluids fluid_delta_pos m p) (bPos boundaries m2 p2) ≤ h * h := by
  rw [fbMatchesOf, List.mem_filterMap] at hc
  obtain ⟨pay, hpay, hdec⟩ := hc
  obtain ⟨m2, p2, rfl, rfl, hd⟩ := (fbDecide_some _ _ _ _ _ _ _ _).1 hdec
  rw [mem_nbhPayloads] at hpay
  obtain ⟨pos, o, _, he, _⟩ := hpay
  obtain ⟨hm2, hp2, -⟩ :=
    payload_entry_boundary h fluids boundaries fluid_delta_pos m2 p2 pos he
  exact ⟨m2, p2, hm2, hp2, rfl, hd⟩

theorem fbMatchesOf_complete (h : ℚ) (fluids : List Fluid)
    (boundaries : List Boundary) (fluid_delta_pos : Option (List (List Vec2)))
    (m p m2 p2 : ℕ) (hh : 0 < h)
    (hm2 : m2 < boundaries.length) (hp2 : p2 < numPB boundaries m2)
    (hd : distSq (fPos fluids fluid_delta_pos m p)
      (bPos boundaries m2 p2) ≤ h * h) :
    (⟨p, m, p2, m2, 0, Vec2.zero⟩ : Contact) ∈
      fbMatchesOf h fluids boundaries fluid_delta_pos m p := by
  rw [fbMatchesOf, List.mem_filterMap]
  refine ⟨(m2, p2, true), ?_,
    (fbDecide_some _ _ _ _ _ _ _ _).2 ⟨m2, p2, rfl, rfl, hd⟩⟩
  rw [mem_nbhPayloads]
  obtain ⟨o, ho, hoeq⟩ := cellOf_near h hh (fPos fluids fluid_delta_pos m p)
    (bPos boundaries m2 p2) hd
  refine ⟨bPos boundaries m2 p2, o, ho, ?_, ?_⟩
  · rw [mem_buildGrid_entries]
    exact Or.inr ⟨m2, p2, hm2, hp2, rfl⟩
  · rw [buildGrid_cell_size]
    exact hoeq

/-- The state of the three collections after the resize phase of
compute_contacts, before the cell loop runs. -/
def initListsOf (fluids : List Fluid) (boundaries : List Boundary)
    (ff0 fb0 bb0 : List ParticlesContacts) : ContactLists :=
  ⟨resizeRanges (fluids.map Fluid.num_particles)
     (listResize ff0 fluids.length ParticlesContacts.new),
   resizeRanges (fluids.map Fluid.num_particles)
     (listResize fb0 fluids.length ParticlesContacts.new),
   resizeRanges (boundaries.map Boundary.num_particles)
     (listResize bb0 boundaries.length ParticlesContacts.new)⟩

theorem init_rangesOK (fluids : List Fluid) (boundaries : List Boundary)
    (ff0 fb0 bb0 : List ParticlesContacts) :
    RangesOK fluids boundaries (initListsOf fluids boundaries ff0 fb0 bb0) := by
  refine ⟨?_, ?_, ?_, ?_, ?_, ?_⟩
  · rw [initListsOf]
    simp only
    rw [resizeRanges_length, listResize_length]
  · rw [initListsOf]
    simp only
    rw [resizeRanges_length, listResize_length]
  · rw [initListsOf]
    simp only
    rw [resizeRanges_length, listResize_length]
  · intro m hm
    rw [initListsOf]
    simp only
    rw [resizeRanges_getD _ _ m (by simpa using hm)
      (by rw [listResize_length]; exact hm)]
    simp only
    rw [listResize_length, getD_map_numPF _ _ hm]
  · intro m hm
    rw [initListsOf]
    simp only
    rw [resizeRanges_getD _ _ m (by simpa using hm)
      (by rw [listResize_length]; exact hm)]
    simp only
    rw [listResize_length, getD_map_numPF _ _ hm]
  · intro m hm
    rw [initListsOf]
    simp only
    rw [resizeRanges_getD _ _ m (by simpa using hm)
      (by rw [listResize_length]; exact hm)]
    simp only
    rw [listResize_length, getD_map_numPB _ _ hm]

theorem compute_contacts_eq_fold (h : ℚ) (fluids : List Fluid)
    (boundaries : List Boundary) (fluid_delta_pos : Option (List (List Vec2)))
    (ff0 fb0 bb0 : List ParticlesContacts) :
    compute_contacts h fluids boundaries fluid_delta_pos ff0 fb0 bb0 =
      (visits (buildGrid h fluids boundaries fluid_delta_pos) h).foldl
        (stepVisit h fluids boundaries fluid_delta_pos)
        (initListsOf fluids boundaries ff0 fb0 bb0) :=
  compute_contacts_eq_foldVisits h fluids boundaries fluid_delta_pos ff0 fb0 bb0

theorem compute_rangesOK (h : ℚ) (fluids : List Fluid)
    (boundaries : List Boundary) (fluid_delta_pos : Option (List (List Vec2)))
    (ff0 fb0 bb0 : List ParticlesContacts) :
    RangesOK fluids boundaries
      (compute_contacts h fluids boundaries fluid_delta_pos ff0 fb0 bb0) := by
  rw [compute_contacts_eq_fold]
  exact foldVisits_rangesOK h fluids boundaries fluid_delta_pos _ _
    (validVisits_buildGrid h fluids boundaries fluid_delta_pos)
    (init_rangesOK fluids boundaries ff0 fb0 bb0)

theorem compute_bb_eq_processRecs (h : ℚ) (fluids : List Fluid)
    (boundaries : List Boundary) (fluid_delta_pos : Option (List (List Vec2)))
    (ff0 fb0 bb0 : List ParticlesContacts) (m : ℕ) (hm : m < boundaries.length) :
    (compute_contacts h fluids boundaries fluid_delta_pos ff0 fb0 bb0).bb.getD m
        ParticlesContacts.new =
      processRecs
        ((initListsOf fluids boundaries ff0 fb0 bb0).bb.getD m ParticlesContacts.new)
        (recsBB h boundaries m
          (visits (buildGrid h fluids boundaries fluid_delta_pos) h)) := by
  rw [compute_contacts_eq_fold]
  exact foldVisits_bb h fluids boundaries fluid_delta_pos m hm _ _
    (validVisits_buildGrid h fluids boundaries fluid_delta_pos)
    (init_rangesOK fluids boundaries ff0 fb0 bb0)

theorem compute_ff_eq_processRecs (h : ℚ) (fluids : List Fluid)
    (boundaries : List Boundary) (fluid_delta_pos : Option (List (List Vec2)))
    (ff0 fb0 bb0 : List ParticlesContacts) (m : ℕ) (hm : m < fluids.length) :
    (compute_contacts h fluids boundaries fluid_delta_pos ff0 fb0 bb0).ff.getD m
        ParticlesContacts.new =
      processRecs
        ((initListsOf fluids boundaries ff0 fb0 bb0).ff.getD m ParticlesContacts.new)
        (recsFF h fluids fluid_delta_pos m
          (visits (buildGrid h fluids boundaries fluid_delta_pos) h)) := by
  rw [compute_contacts_eq_fold]
  exact foldVisits_ff h fluids boundaries fluid_delta_pos m hm _ _
    (validVisits_buildGrid h fluids boundaries fluid_delta_pos)
    (init_rangesOK fluids boundaries ff0 fb0 bb0)

theorem compute_fb_eq_processRecs (h : ℚ) (fluids : List Fluid)
    (boundaries : List Boundary) (fluid_delta_pos : Option (List (List Vec2)))
    (ff0 fb0 bb0 : List ParticlesContacts) (m : ℕ) (hm : m < fluids.length) :
    (compute_contacts h fluids boundaries fluid_delta_pos ff0 fb0 bb0).fb.getD m
        ParticlesContacts.new =
      processRecs
        ((initListsOf fluids boundaries ff0 fb0 bb0).fb.getD m ParticlesContacts.new)
        (recsFB h fluids boundaries fluid_delta_pos m
          (visits (buildGrid h fluids boundaries fluid_delta_pos) h)) := by
  rw [compute_contacts_eq_fold]
  exact foldVisits_fb h fluids boundaries fluid_delta_pos m hm _ _
    (validVisits_buildGrid h fluids boundaries fluid_delta_pos)
    (init_rangesOK fluids boundaries ff0 fb0 bb0)

theorem compute_bb_particle (h : ℚ) (fluids : List Fluid)
    (boundaries : List Boundary) (fluid_delta_pos : Option (List (List Vec2)))
    (ff0 fb0 bb0 : List ParticlesContacts) (m p : ℕ)
    (hm : m < boundaries.length) (hp : p < numPB boundaries m) :
    ∃ s,
      ((compute_contacts h fluids boundaries fluid_delta_pos ff0 fb0 bb0).bb.getD m
          ParticlesContacts.new).contact_ranges.getD p (0, 0) =
        (s, s + (bbMatchesOf h fluids boundaries fluid_delta_pos m p).length) ∧
      ((initListsOf fluids boundaries ff0 fb0 bb0).bb.getD m
          ParticlesContacts.new).contacts.length ≤ s ∧
      s + (bbMatchesOf h fluids boundaries fluid_delta_pos m p).length ≤
        ((compute_contacts h fluids boundaries fluid_delta_pos ff0 fb0 bb0).bb.getD m
          ParticlesContacts.new).contacts.length ∧
      (((compute_contacts h fluids boundaries fluid_delta_pos ff0 fb0 bb0).bb.getD m
          ParticlesContacts.new).contacts.drop s).take
        (bbMatchesOf h fluids boundaries fluid_delta_pos m p).length =
        bbMatchesOf h fluids boundaries fluid_delta_pos m p := by
  rw [compute_bb_eq_processRecs h fluids boundaries fluid_delta_pos ff0 fb0 bb0 m hm]
  exact processRecs_mem_ranges _ _ p _
    (recsBB_fst_nodup h fluids boundaries fluid_delta_pos m)
    (recsBB_mem h fluids boundaries fluid_delta_pos m p hm hp)
    (by rw [(init_rangesOK fluids boundaries ff0 fb0 bb0).2.2.2.2.2 m hm]; exact hp)

theorem compute_ff_particle (h : ℚ) (fluids : List Fluid)
    (boundaries : List Boundary) (fluid_delta_pos : Option (List (List Vec2)))
    (ff0 fb0 bb0 : List ParticlesContacts) (m p : ℕ)
    (hm : m < fluids.length) (hp : p < numPF fluids m) :
    ∃ s,
      ((compute_contacts h fluids boundaries fluid_delta_pos ff0 fb0 bb0).ff.getD m
          ParticlesContacts.new).contact_ranges.getD p (0, 0) =
        (s, s + (ffMatchesOf h fluids boundaries fluid_delta_pos m p).length) ∧
      ((initListsOf fluids boundaries ff0 fb0 bb0).ff.getD m
          ParticlesContacts.new).contacts.length ≤ s ∧
      s + (ffMatchesOf h fluids boundaries fluid_delta_pos m p).length ≤
        ((compute_contacts h fluids boundaries fluid_delta_pos ff0 fb0 bb0).ff.getD m
          ParticlesContacts.new).contacts.length ∧
      (((compute_contacts h fluids boundaries fluid_delta_pos ff0 fb0 bb0).ff.getD m
          ParticlesContacts.new).contacts.drop s).take
        (ffMatchesOf h fluids boundaries fluid_delta_pos m p).length =
        ffMatchesOf h fluids boundaries fluid_delta_pos m p := by
  rw [compute_ff_eq_processRecs h fluids boundaries fluid_delta_pos ff0 fb0 bb0 m hm]
  exact processRecs_mem_ranges _ _ p _
    (recsFF_fst_nodup h fluids boundaries fluid_delta_pos m)
    (recsFF_mem h fluids boundaries fluid_delta_pos m p hm hp)
    (by rw [(init_rangesOK fluids boundaries ff0 fb0 bb0).2.2.2.1 m hm]; exact hp)

theorem compute_fb_particle (h : ℚ) (fluids : List Fluid)
    (boundaries : List Boundary) (fluid_delta_pos : Option (List (List Vec2)))
    (ff0 fb0 bb0 : List ParticlesContacts) (m p : ℕ)
    (hm : m < fluids.length) (hp : p < numPF fluids m) :
    ∃ s,
      ((compute_contacts h fluids boundaries fluid_delta_pos ff0 fb0 bb0).fb.getD m
          ParticlesContacts.new).contact_ranges.getD p (0, 0) =
        (s, s + (fbMatchesOf h fluids boundaries fluid_delta_pos m p).length) ∧
      ((initListsOf fluids boundaries ff0 fb0 bb0).fb.getD m
          ParticlesContacts.new).contacts.length ≤ s ∧
      s + (fbMatchesOf h fluids boundaries fluid_delta_pos m p).length ≤
        ((compute_contacts h fluids boundaries fluid_delta_pos ff0 fb0 bb0).fb.getD m
          ParticlesContacts.new).contacts.length ∧
      (((compute_contacts h fluids boundaries fluid_delta_pos ff0 fb0 bb0).fb.getD m
          ParticlesContacts.new).contacts.drop s).take
        (fbMatchesOf h fluids boundaries fluid_delta_pos m p).length =
        fbMatchesOf h fluids boundaries fluid_delta_pos m p := by
  rw [compute_fb_eq_processRecs h fluids boundaries fluid_delta_pos ff0 fb0 bb0 m hm]
  exact processRecs_mem_ranges _ _ p _
    (recsFB_fst_nodup h fluids boundaries fluid_delta_pos m)
    (recsFB_mem h fluids boundaries fluid_delta_pos m p hm hp)
    (by rw [(init_rangesOK fluids boundaries ff0 fb0 bb0).2.2.2.2.1 m hm]; exact hp)

theorem particle_contacts_of_range (pc : ParticlesContacts) (p s n : ℕ)
    (hr : pc.contact_ranges.getD p (0, 0) = (s, s + n)) :
    pc.particle_contacts p = (pc.contacts.drop s).take n := by
  show ((pc.contacts.drop (pc.contact_ranges.getD p (0, 0)).1).take
      ((pc.contact_ranges.getD p (0, 0)).2 - (pc.contact_ranges.getD p (0, 0)).1)) = _
  rw [hr]
  congr 1
  omega

theorem compute_bb_slice (h : ℚ) (fluids : List Fluid)
    (boundaries : List Boundary) (fluid_delta_pos : Option (List (List Vec2)))
    (ff0 fb0 bb0 : List ParticlesContacts) (m p : ℕ)
    (hm : m < boundaries.length) (hp : p < numPB boundaries m) :
    ((compute_contacts h fluids boundaries fluid_delta_pos ff0 fb0 bb0).bb.getD m
        ParticlesContacts.new).particle_contacts p =
      bbMatchesOf h fluids boundaries fluid_delta_pos m p := by
  obtain ⟨s, hr, _, _, hslice⟩ :=
    compute_bb_particle h fluids boundaries fluid_delta_pos ff0 fb0 bb0 m p hm hp
  rw [particle_contacts_of_range _ _ _ _ hr, hslice]

theorem compute_ff_slice (h : ℚ) (fluids : List Fluid)
    (boundaries : List Boundary) (fluid_delta_pos : Option (List (List Vec2)))
    (ff0 fb0 bb0 : List ParticlesContacts) (m p : ℕ)
    (hm : m < fluids.length) (hp : p < numPF fluids m) :
    ((compute_contacts h fluids boundaries fluid_delta_pos ff0 fb0 bb0).ff.getD m
        ParticlesContacts.new).particle_contacts p =
      ffMatchesOf h fluids boundaries fluid_delta_pos m p := by
  obtain ⟨s, hr, _, _, hslice⟩ :=
    compute_ff_particle h fluids boundaries fluid_delta_pos ff0 fb0 bb0 m p hm hp
  rw [particle_contacts_of_range _ _ _ _ hr, hslice]

theorem compute_fb_slice (h : ℚ) (fluids : List Fluid)
    (boundaries : List Boundary) (fluid_delta_pos : Option (List (List Vec2)))
    (ff0 fb0 bb0 : List ParticlesContacts) (m p : ℕ)
    (hm : m < fluids.length) (hp : p < numPF fluids m) :
    ((compute_contacts h fluids boundaries fluid_delta_pos ff0 fb0 bb0).fb.getD m
        ParticlesContacts.new).particle_contacts p =
      fbMatchesOf h fluids boundaries fluid_delta_pos m p := by
  obtain ⟨s, hr, _, _, hslice⟩ :=
    compute_fb_particle h fluids boundaries fluid_delta_pos ff0 fb0 bb0 m p hm hp
  rw [particle_contacts_of_range _ _ _ _ hr, hslice]

theorem compute_bb_disjoint (h : ℚ) (fluids : List Fluid)
    (boundaries : List Boundary) (fluid_delta_pos : Option (List (List Vec2)))
    (ff0 fb0 bb0 : List ParticlesContacts) (m p q : ℕ)
    (hm : m < boundaries.length) (hp : p < numPB boundaries m)
    (hq : q < numPB boundaries m) (hpq : p ≠ q) :
    (((compute_contacts h fluids boundaries fluid_delta_pos ff0 fb0 bb0).bb.getD m
        ParticlesContacts.new).contact_ranges.getD p (0, 0)).2 ≤
      (((compute_contacts h fluids boundaries fluid_delta_pos ff0 fb0 bb0).bb.getD m
        ParticlesContacts.new).contact_ranges.getD q (0, 0)).1 ∨
    (((compute_contacts h fluids boundaries fluid_delta_pos ff0 fb0 bb0).bb.getD m
        ParticlesContacts.new).contact_ranges.getD q (0, 0)).2 ≤
      (((compute_contacts h fluids boundaries fluid_delta_pos ff0 fb0 bb0).bb.getD m
        ParticlesContacts.new).contact_ranges.getD p (0, 0)).1 := by
  rw [compute_bb_eq_processRecs h fluids boundaries fluid_delta_pos ff0 fb0 bb0 m hm]
  exact processRecs_disjoint _ _ p q _ _
    (recsBB_fst_nodup h fluids boundaries fluid_delta_pos m)
    (recsBB_mem h fluids boundaries fluid_delta_pos m p hm hp)
    (recsBB_mem h fluids boundaries fluid_delta_pos m q hm hq) hpq
    (by rw [(init_rangesOK fluids boundaries ff0 fb0 bb0).2.2.2.2.2 m hm]; exact hp)
    (by rw [(init_rangesOK fluids boundaries ff0 fb0 bb0).2.2.2.2.2 m hm]; exact hq)

theorem compute_ff_disjoint (h : ℚ) (fluids : List Fluid)
    (boundaries : List Boundary) (fluid_delta_pos : Option (List (List Vec2)))
    (ff0 fb0 bb0 : List ParticlesContacts) (m p q : ℕ)
    (hm : m < fluids.length) (hp : p < numPF fluids m)
    (hq : q < numPF fluids m) (hpq : p ≠ q) :
    (((compute_contacts h fluids boundaries fluid_delta_pos ff0 fb0 bb0).ff.getD m
        ParticlesContacts.new).contact_ranges.getD p (0, 0)).2 ≤
      (((compute_contacts h fluids boundaries fluid_delta_pos ff0 fb0 bb0).ff.getD m
        ParticlesContacts.new).contact_ranges.getD q (0, 0)).1 ∨
    (((compute_contacts h fluids boundaries fluid_delta_pos ff0 fb0 bb0).ff.getD m
        ParticlesContacts.new).contact_ranges.getD q (0, 0)).2 ≤
      (((compute_contacts h fluids boundaries fluid_delta_pos ff0 fb0 bb0).ff.getD m
        ParticlesContacts.new).contact_ranges.getD p (0, 0)).1 := by
  rw [compute_ff_eq_processRecs h fluids boundaries fluid_delta_pos ff0 fb0 bb0 m hm]
  exact processRecs_disjoint _ _ p q _ _
    (recsFF_fst_nodup h fluids boundaries fluid_delta_pos m)
    (recsFF_mem h fluids boundaries fluid_delta_pos m p hm hp)
    (recsFF_mem h fluids boundaries fluid_delta_pos m q hm hq) hpq
    (by rw [(init_rangesOK fluids boundaries ff0 fb0 bb0).2.2.2.1 m hm]; exact hp)
    (by rw [(init_rangesOK fluids boundaries ff0 fb0 bb0).2.2.2.1 m hm]; exact hq)

theorem compute_fb_disjoint (h : ℚ) (fluids : List Fluid)
    (boundaries : List Boundary) (fluid_delta_pos : Option (List (List Vec2)))
    (ff0 fb0 bb0 : List ParticlesContacts) (m p q : ℕ)
    (hm : m < fluids.length) (hp : p < numPF fluids m)
    (hq : q < numPF fluids m) (hpq : p ≠ q) :
    (((compute_contacts h fluids boundaries fluid_delta_pos ff0 fb0 bb0).fb.getD m
        ParticlesContacts.new).contact_ranges.getD p (0, 0)).2 ≤
      (((compute_contacts h fluids boundaries fluid_delta_pos ff0 fb0 bb0).fb.getD m
        ParticlesContacts.new).contact_ranges.getD q (0, 0)).1 ∨
    (((compute_contacts h fluids boundaries fluid_delta_pos ff0 fb0 bb0).fb.getD m
        ParticlesContacts.new).contact_ranges.getD q (0, 0)).2 ≤
      (((compute_contacts h fluids boundaries fluid_delta_pos ff0 fb0 bb0).fb.getD m
        ParticlesContacts.new).contact_ranges.getD p (0, 0)).1 := by
  rw [compute_fb_eq_processRecs h fluids boundaries fluid_delta_pos ff0 fb0 bb0 m hm]
  exact processRecs_disjoint _ _ p q _ _
    (recsFB_fst_nodup h fluids boundaries fluid_delta_pos m)
    (recsFB_mem h fluids boundaries fluid_delta_pos m p hm hp)
    (recsFB_mem h fluids boundaries fluid_delta_pos m q hm hq) hpq
    (by rw [(init_rangesOK fluids boundaries ff0 fb0 bb0).2.2.2.2.1 m hm]; exact hp)
    (by rw [(init_rangesOK fluids boundaries ff0 fb0 bb0).2.2.2.2.1 m hm]; exact hq)

/-!
## Counting the contacts recorded for one particle
-/

theorem filter_i_flatten_nil (recs : List (ℕ × List Contact)) (p : ℕ)
    (hnot : p ∉ recs.map Prod.fst)
    (hblocks : ∀ r ∈ recs, ∀ c ∈ r.2, c.i = r.1) :
    (recs.map Prod.snd).flatten.filter (fun c => c.i = p) = [] := by
  rw [List.filter_eq_nil_iff]
  intro c hc
  rw [List.mem_flatten] at hc
  obtain ⟨l, hl, hcl⟩ := hc
  rw [List.mem_map] at hl
  obtain ⟨r, hr, rfl⟩ := hl
  have hi : c.i = r.1 := hblocks r hr c hcl
  have hne : r.1 ≠ p := fun he => hnot (List.mem_map.2 ⟨r, hr, he⟩)
  simp [hi, hne]

theorem count_recorded (p : ℕ) (ms : List Contact) :
    ∀ recs : List (ℕ × List Contact),
    (recs.map Prod.fst).Nodup → (p, ms) ∈ recs →
    (∀ r ∈ recs, ∀ c ∈ r.2, c.i = r.1) →
    ((recs.map Prod.snd).flatten.filter (fun c => c.i = p)).length = ms.length := by
  intro recs
  induction recs with
  | nil => intro _ hmem _; cases hmem
  | cons r rest ih =>
    intro hnd hmem hblocks
    rw [List.map_cons, List.nodup_cons] at hnd
    rw [List.map_cons, List.flatten_cons, List.filter_append, List.length_append]
    have hbr : ∀ c ∈ r.2, c.i = r.1 :=
      hblocks r (List.mem_cons_self r rest)
    have hbrest : ∀ r2 ∈ rest, ∀ c ∈ r2.2, c.i = r2.1 :=
      fun r2 hr2 => hblocks r2 (List.mem_cons_of_mem r hr2)
    rcases List.mem_cons.1 hmem with heq | hrest
    · have hfst : r.1 = p := (congrArg Prod.fst heq).symm
      have hsnd : r.2 = ms := (congrArg Prod.snd heq).symm
      have hself : r.2.filter (fun c => c.i = p) = r.2 := by
        rw [List.filter_eq_self]
        intro c hc
        simp [hbr c hc, hfst]
      have hnil : (rest.map Prod.snd).flatten.filter (fun c => c.i = p) = [] :=
        filter_i_flatten_nil rest p (by rw [← hfst]; exact hnd.1) hbrest
      rw [hself, hnil, hsnd]
      simp
    · have hfst : r.1 ≠ p := by
        intro he
        apply hnd.1
        rw [he]
        exact List.mem_map.2 ⟨(p, ms), hrest, rfl⟩
      have hnil : r.2.filter (fun c => c.i = p) = [] := by
        rw [List.filter_eq_nil_iff]
        intro c hc
        simp [hbr c hc, hfst]
      rw [hnil]
      simp only [List.length_nil, Nat.zero_add]
      exact ih hnd.2 hrest hbrest

theorem recsBB_blocks_i (h : ℚ) (boundaries : List Boundary) (m : ℕ)
    (V : List (Payload × List (Cell × List Payload))) :
    ∀ r ∈ recsBB h boundaries m V, ∀ c ∈ r.2, c.i = r.1 := by
  intro r hr c hc
  rw [recsBB, List.mem_filterMap] at hr
  obtain ⟨v, _, hif⟩ := hr
  by_cases hcond : v.1.2.2 = true ∧ v.1.1 = m
  · rw [if_pos hcond] at hif
    obtain rfl := Option.some.inj hif
    simp only at hc ⊢
    rw [List.mem_filterMap] at hc
    obtain ⟨pay, _, hdec⟩ := hc
    obtain ⟨m2, p2, _, rfl, _⟩ := (bbDecide_some _ _ _ _ _ _).1 hdec
    rfl
  · rw [if_neg hcond] at hif
    cases hif

theorem recsFF_blocks_i (h : ℚ) (fluids : List Fluid)
    (fluid_delta_pos : Option (List (List Vec2))) (m : ℕ)
    (V : List (Payload × List (Cell × List Payload))) :
    ∀ r ∈ recsFF h fluids fluid_delta_pos m V, ∀ c ∈ r.2, c.i = r.1 := by
  intro r hr c hc
  rw [recsFF, List.mem_filterMap] at hr
  obtain ⟨v, _, hif⟩ := hr
  by_cases hcond : v.1.2.2 = false ∧ v.1.1 = m
  · rw [if_pos hcond] at hif
    obtain rfl := Option.some.inj hif
    simp only at hc ⊢
    rw [List.mem_filterMap] at hc
    obtain ⟨pay, _, hdec⟩ := hc
    obtain ⟨m2, p2, _, rfl, _⟩ := (ffDecide_some _ _ _ _ _ _ _).1 hdec
    rfl
  · rw [if_neg hcond] at hif
    cases hif

theorem recsFB_blocks_i (h : ℚ) (fluids : List Fluid)
    (boundaries : List Boundary) (fluid_delta_pos : Option (List (List Vec2)))
    (m : ℕ) (V : List (Payload × List (Cell × List Payload))) :
    ∀ r ∈ recsFB h fluids boundaries fluid_delta_pos m V, ∀ c ∈ r.2, c.i = r.1 := by
  intro r hr c hc
  rw [recsFB, List.mem_filterMap] at hr
  obtain ⟨v, _, hif⟩ := hr
  by_cases hcond : v.1.2.2 = false ∧ v.1.1 = m
  · rw [if_pos hcond] at hif
    obtain rfl := Option.some.inj hif
    simp only at hc ⊢
    rw [List.mem_filterMap] at hc
    obtain ⟨pay, _, hdec⟩ := hc
    obtain ⟨m2, p2, _, rfl, _⟩ := (fbDecide_some _ _ _ _ _ _ _ _).1 hdec
    rfl
  · rw [if_neg hcond] at hif
    cases hif

theorem compute_bb_contacts (h : ℚ) (fluids : List Fluid)
    (boundaries : List Boundary) (fluid_delta_pos : Option (List (List Vec2)))
    (ff0 fb0 bb0 : List ParticlesContacts) (m : ℕ) (hm : m < boundaries.length) :
    ((compute_contacts h fluids boundaries fluid_delta_pos ff0 fb0 bb0).bb.getD m
        ParticlesContacts.new).contacts =
      ((initListsOf fluids boundaries ff0 fb0 bb0).bb.getD m
        ParticlesContacts.new).contacts ++
      ((recsBB h boundaries m
          (visits (buildGrid h fluids boundaries fluid_delta_pos) h)).map
        Prod.snd).flatten := by
  rw [compute_bb_eq_processRecs h fluids boundaries fluid_delta_pos ff0 fb0 bb0 m hm]
  exact processRecs_contacts _ _

theorem compute_ff_contacts (h : ℚ) (fluids : List Fluid)
    (boundaries : List Boundary) (fluid_delta_pos : Option (List (List Vec2)))
    (ff0 fb0 bb0 : List ParticlesContacts) (m : ℕ) (hm : m < fluids.length) :
    ((compute_contacts h fluids boundaries fluid_delta_pos ff0 fb0 bb0).ff.getD m
        ParticlesContacts.new).contacts =
      ((initListsOf fluids boundaries ff0 fb0 bb0).ff.getD m
        ParticlesContacts.new).contacts ++
      ((recsFF h fluids fluid_delta_pos m
          (visits (buildGrid h fluids boundaries fluid_delta_pos) h)).map
        Prod.snd).flatten := by
  rw [compute_ff_eq_processRecs h fluids boundaries fluid_delta_pos ff0 fb0 bb0 m hm]
  exact processRecs_contacts _ _

theorem compute_fb_contacts (h : ℚ) (fluids : List Fluid)
    (boundaries : List Boundary) (fluid_delta_pos : Option (List (List Vec2)))
    (ff0 fb0 bb0 : List ParticlesContacts) (m : ℕ) (hm : m < fluids.length) :
    ((compute_contacts h fluids boundaries fluid_delta_pos ff0 fb0 bb0).fb.getD m
        ParticlesContacts.new).contacts =
      ((initListsOf fluids boundaries ff0 fb0 bb0).fb.getD m
        ParticlesContacts.new).contacts ++
      ((recsFB h fluids boundaries fluid_delta_pos m
          (visits (buildGrid h fluids boundaries fluid_delta_pos) h)).map
        Prod.snd).flatten := by
  rw [compute_fb_eq_processRecs h fluids boundaries fluid_delta_pos ff0 fb0 bb0 m hm]
  exact processRecs_contacts _ _

theorem compute_bb_count (h : ℚ) (fluids : List Fluid)
    (boundaries : List Boundary) (fluid_delta_pos : Option (List (List Vec2)))
    (ff0 fb0 bb0 : List ParticlesContacts) (m p : ℕ)
    (hm : m < boundaries.length) (hp : p < numPB boundaries m) :
    ((((compute_contacts h fluids boundaries fluid_delta_pos ff0 fb0 bb0).bb.getD m
          ParticlesContacts.new).contacts.drop
        ((initListsOf fluids boundaries ff0 fb0 bb0).bb.getD m
          ParticlesContacts.new).contacts.length).filter
      (fun c => c.i = p)).length =
      (bbMatchesOf h fluids boundaries fluid_delta_pos m p).length := by
  rw [compute_bb_contacts h fluids boundaries fluid_delta_pos ff0 fb0 bb0 m hm,
    List.drop_left]
  exact count_recorded p _ _
    (recsBB_fst_nodup h fluids boundaries fluid_delta_pos m)
    (recsBB_mem h fluids boundaries fluid_delta_pos m p hm hp)
    (recsBB_blocks_i h boundaries m _)

theorem compute_ff_count (h : ℚ) (fluids : List Fluid)
    (boundaries : List Boundary) (fluid_delta_pos : Option (List (List Vec2)))
    (ff0 fb0 bb0 : List ParticlesContacts) (m p : ℕ)
    (hm : m < fluids.length) (hp : p < numPF fluids m) :
    ((((compute_contacts h fluids boundaries fluid_delta_pos ff0 fb0 bb0).ff.getD m
          ParticlesContacts.new).contacts.drop
        ((initListsOf fluids boundaries ff0 fb0 bb0).ff.getD m
          ParticlesContacts.new).contacts.length).filter
      (fun c => c.i = p)).length =
      (ffMatchesOf h fluids boundaries fluid_delta_pos m p).length := by
  rw [compute_ff_contacts h fluids boundaries fluid_delta_pos ff0 fb0 bb0 m hm,
    List.drop_left]
  exact count_recorded p _ _
    (recsFF_fst_nodup h fluids boundaries fluid_delta_pos m)
    (recsFF_mem h fluids boundaries fluid_delta_pos m p hm hp)
    (recsFF_blocks_i h fluids fluid_delta_pos m _)

theorem compute_fb_count (h : ℚ) (fluids : List Fluid)
    (boundaries : List Boundary) (fluid_delta_pos : Option (List (List Vec2)))
    (ff0 fb0 bb0 : List ParticlesContacts) (m p : ℕ)
    (hm : m < fluids.length) (hp : p < numPF fluids m) :
    ((((compute_contacts h fluids boundaries fluid_delta_pos ff0 fb0 bb0).fb.getD m
          ParticlesContacts.new).contacts.drop
        ((initListsOf fluids boundaries ff0 fb0 bb0).fb.getD m
          ParticlesContacts.new).contacts.length).filter
      (fun c => c.i = p)).length =
      (fbMatchesOf h fluids boundaries fluid_delta_pos m p).length := by
  rw [compute_fb_contacts h fluids boundaries fluid_delta_pos ff0 fb0 bb0 m hm,
    List.drop_left]
  exact count_recorded p _ _
    (recsFB_fst_nodup h fluids boundaries fluid_delta_pos m)
    (recsFB_mem h fluids boundaries fluid_delta_pos m p hm hp)
    (recsFB_blocks_i h fluids boundaries fluid_delta_pos m _)

/-!
## The viscosity accumulation as a filtered sum
-/

/-- The approach rate (p_i - p_j) . (v_i - v_j) of a contact. -/
def approachRate (positions velocities : List Vec2) (c : Contact) : ℚ :=
  ((positions.getD c.i Vec2.zero) - (positions.getD c.j Vec2.zero)).dot
    ((velocities.getD c.i Vec2.zero) - (velocities.getD c.j Vec2.zero))

/-- The unguarded artificial-viscosity contribution of one contact, exactly
the expression the claim states: gradient * (c_s * alpha * mu - beta * mu^2)
* (vol_j * density0 / ((rho_i + rho_j)/2)) with
mu = kernel_radius * vr / (dist^2 + 0.01 * kernel_radius^2). -/
def viscTerm (av : ArtificialViscosity) (kernel_radius : ℚ)
    (positions velocities : List Vec2) (volumes : List ℚ) (density0 : ℚ)
    (densities : List ℚ) (c : Contact) : Vec2 :=
  let r_ij := positions.getD c.i Vec2.zero - positions.getD c.j Vec2.zero
  let vr := approachRate positions velocities c
  let density_average := (densities.getD c.i 0 + densities.getD c.j 0) * (1 / 2)
  let eta2 := kernel_radius * kernel_radius * (1 / 100)
  let mu_ij := kernel_radius * vr / (r_ij.normSq + eta2)
  Vec2.smul ((av.speed_of_sound * av.alpha * mu_ij - av.beta * mu_ij * mu_ij)
      * (volumes.getD c.j 0 * density0 / density_average)) c.gradient

theorem contactTerm_eq_ite (av : ArtificialViscosity) (kernel_radius : ℚ)
    (positions velocities : List Vec2) (volumes : List ℚ) (density0 : ℚ)
    (densities : List ℚ) (c : Contact) :
    av.contactTerm kernel_radius positions velocities volumes density0 densities c =
      if c.i_model = c.j_model ∧ approachRate positions velocities c < 0 then
        viscTerm av kernel_radius positions velocities volumes density0 densities c
      else Vec2.zero := by
  rw [ArtificialViscosity.contactTerm, viscTerm, approachRate]
  by_cases h1 : c.i_model = c.j_model
  · by_cases h2 : ((positions.getD c.i Vec2.zero) - (positions.getD c.j Vec2.zero)).dot
        ((velocities.getD c.i Vec2.zero) - (velocities.getD c.j Vec2.zero)) < 0
    · rw [if_pos h1, if_pos h2, if_pos ⟨h1, h2⟩]
    · rw [if_pos h1, if_neg h2, if_neg (fun hc => h2 hc.2)]
  · rw [if_neg h1, if_neg (fun hc => h1 hc.1)]

theorem foldl_add_eq_sum (f : Contact → Vec2) (l : List Contact) :
    ∀ init : Vec2, l.foldl (fun acc c => acc + f c) init = init + (l.map f).sum := by
  induction l with
  | nil => intro init; simp
  | cons c rest ih =>
    intro init
    rw [List.foldl_cons, ih, List.map_cons, List.sum_cons, add_assoc]

theorem sum_map_ite_eq_filter (P : Contact → Prop) [DecidablePred P]
    (T : Contact → Vec2) (l : List Contact) :
    (l.map (fun c => if P c then T c else Vec2.zero)).sum =
      ((l.filter (fun c => P c)).map T).sum := by
  induction l with
  | nil => rfl
  | cons c rest ih =>
    rw [List.map_cons, List.sum_cons, ih]
    by_cases hc : P c
    · rw [if_pos hc, List.filter_cons_of_pos (by simpa using hc), List.map_cons,
        List.sum_cons]
    · rw [if_neg hc, List.filter_cons_of_neg (by simpa using hc)]
      exact Vec2.zero_add _

theorem solve_accelerations_getD (av : ArtificialViscosity)
    (dt inv_dt kernel_radius : ℚ) (fluid_fluid_contacts : ParticlesContacts)
    (fluid : Fluid) (densities : List ℚ) (i : ℕ)
    (hi : i < fluid.accelerations.length) :
    (av.solve dt inv_dt kernel_radius fluid_fluid_contacts fluid
        densities).accelerations.getD i Vec2.zero =
      fluid.accelerations.getD i Vec2.zero +
        Vec2.smul av.viscosity_coefficient
          ((fluid_fluid_contacts.particle_contacts i).foldl
            (fun acc c => acc +
              av.contactTerm kernel_radius fluid.positions fluid.velocities
                fluid.volumes fluid.density0 densities c)
            Vec2.zero) := by
  rw [ArtificialViscosity.solve]
  simp only
  rw [getD_eq_getElem_of_lt _ _ (by simpa using hi), List.getElem_map,
    List.getElem_range]

theorem filterMap_eq_single {α β : Type} (F : α → Option β) (a : α) (b : β) :
    ∀ l : List α, l.Nodup → a ∈ l → F a = some b →
    (∀ x ∈ l, x ≠ a → F x = none) →
    l.filterMap F = [b] := by
  intro l
  induction l with
  | nil => intro _ ha _ _; cases ha
  | cons x xs ih =>
    intro hnd ha hFa hother
    rw [List.nodup_cons] at hnd
    rcases List.mem_cons.1 ha with rfl | hxs
    · rw [List.filterMap_cons, hFa]
      have hnil : xs.filterMap F = [] := by
        rw [List.filterMap_eq_nil_iff]
        intro y hy
        exact hother y (List.mem_cons_of_mem _ hy) (fun he => hnd.1 (he ▸ hy))
      rw [hnil]
    · have hxa : x ≠ a := fun he => hnd.1 (he ▸ hxs)
      rw [List.filterMap_cons, hother x (List.mem_cons_self x xs) hxa]
      exact ih hnd.2 hxs hFa
        (fun y hy hne => hother y (List.mem_cons_of_mem x hy) hne)

/-!
## Concrete configurations used by the witnesses and counterexamples
-/

/-- A single fluid particle at the origin. -/
def f1ex : Fluid := ⟨[⟨0, 0⟩], [⟨0, 0⟩], [⟨0, 0⟩], [1], 1⟩

/-- Two fluid particles half a radius apart, approaching head-on. -/
def f2ex : Fluid :=
  ⟨[⟨0, 0⟩, ⟨1 / 2, 0⟩], [⟨1, 0⟩, ⟨-1, 0⟩], [⟨0, 0⟩, ⟨0, 0⟩], [1, 1], 1⟩

/-- One boundary particle within the interaction radius of both fluids. -/
def b1ex : Boundary := ⟨[⟨0, 1 / 2⟩]⟩

/-- The outcome of a first compute_contacts call on the single particle. -/
def res1ex : ContactLists := compute_contacts 1 [f1ex] [] none [] [] []

/-!
## The claims
-/

/-- C6: for every particle inserted into the grid, compute_contacts records
the self-pair contact (i, i) with i_model = j_model in i's range of the
corresponding same-kind list (fluid-fluid for fluids, boundary-boundary for
boundaries), because the self squared distance 0 is at most h * h. -/
theorem C6_self_pairs (h : ℚ) (fluids : List Fluid) (boundaries : List Boundary)
    (fluid_delta_pos : Option (List (List Vec2)))
    (ff0 fb0 bb0 : List ParticlesContacts) :
    (∀ m p, m < fluids.length → p < numPF fluids m →
      (⟨p, m, p, m, 0, Vec2.zero⟩ : Contact) ∈
        ((compute_contacts h fluids boundaries fluid_delta_pos ff0 fb0 bb0).ff.getD m
          ParticlesContacts.new).particle_contacts p) ∧
    (∀ m p, m < boundaries.length → p < numPB boundaries m →
      (⟨p, m, p, m, 0, Vec2.zero⟩ : Contact) ∈
        ((compute_contacts h fluids boundaries fluid_delta_pos ff0 fb0 bb0).bb.getD m
          ParticlesContacts.new).particle_contacts p) := by
  constructor
  · intro m p hm hp
    rw [compute_ff_slice h fluids boundaries fluid_delta_pos ff0 fb0 bb0 m p hm hp]
    exact ffMatchesOf_self h fluids boundaries fluid_delta_pos m p hm hp
  · intro m p hm hp
    rw [compute_bb_slice h fluids boundaries fluid_delta_pos ff0 fb0 bb0 m p hm hp]
    exact bbMatchesOf_self h fluids boundaries fluid_delta_pos m p hm hp

theorem C6_self_pairs_witness :
    (0 : ℕ) < ([f1ex] : List Fluid).length ∧ (0 : ℕ) < numPF [f1ex] 0 ∧
    (⟨0, 0, 0, 0, 0, Vec2.zero⟩ : Contact) ∈
      ((compute_contacts 1 [f1ex] [] none [] [] []).ff.getD 0
        ParticlesContacts.new).particle_contacts 0 :=
  ⟨by decide, by decide,
    (C6_self_pairs 1 [f1ex] [] none [] [] []).1 0 0 (by decide) (by decide)⟩

/-- C10: after compute_contacts, every stored range of every produced list is
in bounds: for each particle index below the owning model's particle count,
start ≤ stop and stop ≤ contacts.length, so particle_contacts never indexes
out of bounds for such an index. -/
theorem C10_ranges_in_bounds (h : ℚ) (fluids : List Fluid)
    (boundaries : List Boundary) (fluid_delta_pos : Option (List (List Vec2)))
    (ff0 fb0 bb0 : List ParticlesContacts) :
    (∀ m p, m < fluids.length → p < numPF fluids m →
      (((compute_contacts h fluids boundaries fluid_delta_pos ff0 fb0 bb0).ff.getD m
          ParticlesContacts.new).contact_ranges.getD p (0, 0)).1 ≤
        (((compute_contacts h fluids boundaries fluid_delta_pos ff0 fb0 bb0).ff.getD m
          ParticlesContacts.new).contact_ranges.getD p (0, 0)).2 ∧
      (((compute_contacts h fluids boundaries fluid_delta_pos ff0 fb0 bb0).ff.getD m
          ParticlesContacts.new).contact_ranges.getD p (0, 0)).2 ≤
        ((compute_contacts h fluids boundaries fluid_delta_pos ff0 fb0 bb0).ff.getD m
          ParticlesContacts.new).contacts.length) ∧
    (∀ m p, m < fluids.length → p < numPF fluids m →
      (((compute_contacts h fluids boundaries fluid_delta_pos ff0 fb0 bb0).fb.getD m
          ParticlesContacts.new).contact_ranges.getD p (0, 0)).1 ≤
        (((compute_contacts h fluids boundaries fluid_delta_pos ff0 fb0 bb0).fb.getD m
          ParticlesContacts.new).contact_ranges.getD p (0, 0)).2 ∧
      (((compute_contacts h fluids boundaries fluid_delta_pos ff0 fb0 bb0).fb.getD m
          ParticlesContacts.new).contact_ranges.getD p (0, 0)).2 ≤
        ((compute_contacts h fluids boundaries fluid_delta_pos ff0 fb0 bb0).fb.getD m
          ParticlesContacts.new).contacts.length) ∧
    (∀ m p, m < boundaries.length → p < numPB boundaries m →
      (((compute_contacts h fluids boundaries fluid_delta_pos ff0 fb0 bb0).bb.getD m
          ParticlesContacts.new).contact_ranges.getD p (0, 0)).1 ≤
        (((compute_contacts h fluids boundaries fluid_delta_pos ff0 fb0 bb0).bb.getD m
          ParticlesContacts.new).contact_ranges.getD p (0, 0)).2 ∧
      (((compute_contacts h fluids boundaries fluid_delta_pos ff0 fb0 bb0).bb.getD m
          ParticlesContacts.new).contact_ranges.getD p (0, 0)).2 ≤
        ((compute_contacts h fluids boundaries fluid_delta_pos ff0 fb0 bb0).bb.getD m
          ParticlesContacts.new).contacts.length) := by
  refine ⟨?_, ?_, ?_⟩
  · intro m p hm hp
    obtain ⟨s, hr, _, hend, _⟩ :=
      compute_ff_particle h fluids boundaries fluid_delta_pos ff0 fb0 bb0 m p hm hp
    rw [hr]
    exact ⟨Nat.le_add_right s _, hend⟩
  · intro m p hm hp
    obtain ⟨s, hr, _, hend, _⟩ :=
      compute_fb_particle h fluids boundaries fluid_delta_pos ff0 fb0 bb0 m p hm hp
    rw [hr]
    exact ⟨Nat.le_add_right s _, hend⟩
  · intro m p hm hp
    obtain ⟨s, hr, _, hend, _⟩ :=
      compute_bb_particle h fluids boundaries fluid_delta_pos ff0 fb0 bb0 m p hm hp
    rw [hr]
    exact ⟨Nat.le_add_right s _, hend⟩

theorem C10_ranges_in_bounds_witness :
    (0 : ℕ) < ([f2ex] : List Fluid).length ∧ (1 : ℕ) < numPF [f2ex] 0 ∧
    ((((compute_contacts 1 [f2ex] [b1ex] none [] [] []).ff.getD 0
        ParticlesContacts.new).contact_ranges.getD 1 (0, 0)).1 ≤
      (((compute_contacts 1 [f2ex] [b1ex] none [] [] []).ff.getD 0
        ParticlesContacts.new).contact_ranges.getD 1 (0, 0)).2 ∧
      (((compute_contacts 1 [f2ex] [b1ex] none [] [] []).ff.getD 0
        ParticlesContacts.new).contact_ranges.getD 1 (0, 0)).2 ≤
      ((compute_contacts 1 [f2ex] [b1ex] none [] [] []).ff.getD 0
        ParticlesContacts.new).contacts.length) :=
  ⟨by decide, by decide,
    (C10_ranges_in_bounds 1 [f2ex] [b1ex] none [] [] []).1 0 1
      (by decide) (by decide)⟩

/-- C9: compute_contacts is deterministic: two calls with equal inputs (same
h, fluids, boundaries, deltas and initial output vectors, hence the same
insertion order) produce equal outputs.  The embedding is a pure function of
exactly these inputs, with the grid iteration order modelled
deterministically, so equal inputs give equal flat contact arrays and equal
contact_ranges in every produced list. -/
theorem C9_deterministic (h1 h2 : ℚ) (fluids1 fluids2 : List Fluid)
    (boundaries1 boundaries2 : List Boundary)
    (dl1 dl2 : Option (List (List Vec2)))
    (ff1 ff2 fb1 fb2 bb1 bb2 : List ParticlesContacts)
    (eh : h1 = h2) (efl : fluids1 = fluids2) (ebd : boundaries1 = boundaries2)
    (edl : dl1 = dl2) (eff : ff1 = ff2) (efb : fb1 = fb2) (ebb : bb1 = bb2) :
    compute_contacts h1 fluids1 boundaries1 dl1 ff1 fb1 bb1 =
      compute_contacts h2 fluids2 boundaries2 dl2 ff2 fb2 bb2 := by
  subst eh efl ebd edl eff efb ebb
  rfl

theorem C9_deterministic_witness :
    compute_contacts 1 [f1ex] [] none [] [] [] =
      compute_contacts 1 [f1ex] [] none [] [] [] :=
  C9_deterministic 1 1 [f1ex] [f1ex] [] [] none none [] [] [] [] [] []
    rfl rfl rfl rfl rfl rfl rfl

/-- C1: for every call to compute_contacts and every pair of particles whose
grid-insertion positions (fluid position plus delta when deltas are supplied;
boundary raw position) lie at squared distance at most h * h, the pair is
recorded in the appropriate family list (fluid-fluid, fluid-boundary with
the boundary as j, boundary-boundary); and no recorded contact joins a pair
whose squared distance on the same positions exceeds h * h.  The membership
equivalences give both directions, and the last three conjuncts say every
recorded contact is such a pair within h * h. -/
theorem C1_neighbor_completeness (h : ℚ) (fluids : List Fluid)
    (boundaries : List Boundary) (fluid_delta_pos : Option (List (List Vec2)))
    (ff0 fb0 bb0 : List ParticlesContacts) (hh : 0 < h) :
    (∀ m p m2 p2, m < fluids.length → p < numPF fluids m →
      m2 < fluids.length → p2 < numPF fluids m2 →
      ((⟨p, m, p2, m2, 0, Vec2.zero⟩ : Contact) ∈
        ((compute_contacts h fluids boundaries fluid_delta_pos ff0 fb0 bb0).ff.getD m
          ParticlesContacts.new).particle_contacts p ↔
        distSq (fPos fluids fluid_delta_pos m p)
          (fPos fluids fluid_delta_pos m2 p2) ≤ h * h)) ∧
    (∀ m p m2 p2, m < fluids.length → p < numPF fluids m →
      m2 < boundaries.length → p2 < numPB boundaries m2 →
      ((⟨p, m, p2, m2, 0, Vec2.zero⟩ : Contact) ∈
        ((compute_contacts h fluids boundaries fluid_delta_pos ff0 fb0 bb0).fb.getD m
          ParticlesContacts.new).particle_contacts p ↔
        distSq (fPos fluids fluid_delta_pos m p) (bPos boundaries m2 p2) ≤ h * h)) ∧
    (∀ m p m2 p2, m < boundaries.length → p < numPB boundaries m →
      m2 < boundaries.length → p2 < numPB boundaries m2 →
      ((⟨p, m, p2, m2, 0, Vec2.zero⟩ : Contact) ∈
        ((compute_contacts h fluids boundaries fluid_delta_pos ff0 fb0 bb0).bb.getD m
          ParticlesContacts.new).particle_contacts p ↔
        distSq (bPos boundaries m p) (bPos boundaries m2 p2) ≤ h * h)) ∧
    (∀ m p c, m < fluids.length → p < numPF fluids m →
      c ∈ ((compute_contacts h fluids boundaries fluid_delta_pos ff0 fb0 bb0).ff.getD m
          ParticlesContacts.new).particle_contacts p →
      ∃ m2 p2, m2 < fluids.length ∧ p2 < numPF fluids m2 ∧
        c = ⟨p, m, p2, m2, 0, Vec2.zero⟩ ∧
        distSq (fPos fluids fluid_delta_pos m p)
          (fPos fluids fluid_delta_pos m2 p2) ≤ h * h) ∧
    (∀ m p c, m < fluids.length → p < numPF fluids m →
      c ∈ ((compute_contacts h fluids boundaries fluid_delta_pos ff0 fb0 bb0).fb.getD m
          ParticlesContacts.new).particle_contacts p →
      ∃ m2 p2, m2 < boundaries.length ∧ p2 < numPB boundaries m2 ∧
        c = ⟨p, m, p2, m2, 0, Vec2.zero⟩ ∧
        distSq (fPos fluids fluid_delta_pos m p) (bPos boundaries m2 p2) ≤ h * h) ∧
    (∀ m p c, m < boundaries.length → p < numPB boundaries m →
      c ∈ ((compute_contacts h fluids boundaries fluid_delta_pos ff0 fb0 bb0).bb.getD m
          ParticlesContacts.new).particle_contacts p →
      ∃ m2 p2, m2 < boundaries.length ∧ p2 < numPB boundaries m2 ∧
        c = ⟨p, m, p2, m2, 0, Vec2.zero⟩ ∧
        distSq (bPos boundaries m p) (bPos boundaries m2 p2) ≤ h * h) := by
  refine ⟨?_, ?_, ?_, ?_, ?_, ?_⟩
  · intro m p m2 p2 hm hp hm2 hp2
    rw [compute_ff_slice h fluids boundaries fluid_delta_pos ff0 fb0 bb0 m p hm hp]
    constructor
    · intro hc
      obtain ⟨m3, p3, _, _, heq, hd⟩ :=
        ffMatchesOf_sound h fluids boundaries fluid_delta_pos m p _ hc
      have h2 : p2 = p3 := congrArg Contact.j heq
      have h3 : m2 = m3 := congrArg Contact.j_model heq
      rw [h2, h3]
      exact hd
    · intro hd
      exact ffMatchesOf_complete h fluids boundaries fluid_delta_pos m p m2 p2
        hh hm2 hp2 hd
  · intro m p m2 p2 hm hp hm2 hp2
    rw [compute_fb_slice h fluids boundaries fluid_delta_pos ff0 fb0 bb0 m p hm hp]
    constructor
    · intro hc
      obtain ⟨m3, p3, _, _, heq, hd⟩ :=
        fbMatchesOf_sound h fluids boundaries fluid_delta_pos m p _ hc
      have h2 : p2 = p3 := congrArg Contact.j heq
      have h3 : m2 = m3 := congrArg Contact.j_model heq
      rw [h2, h3]
      exact hd
    · intro hd
      exact fbMatchesOf_complete h fluids boundaries fluid_delta_pos m p m2 p2
        hh hm2 hp2 hd
  · intro m p m2 p2 hm hp hm2 hp2
    rw [compute_bb_slice h fluids boundaries fluid_delta_pos ff0 fb0 bb0 m p hm hp]
    constructor
    · intro hc
      obtain ⟨m3, p3, _, _, heq, hd⟩ :=
        bbMatchesOf_sound h fluids boundaries fluid_delta_pos m p _ hc
      have h2 : p2 = p3 := congrArg Contact.j heq
      have h3 : m2 = m3 := congrArg Contact.j_model heq
      rw [h2, h3]
      exact hd
    · intro hd
      exact bbMatchesOf_complete h fluids boundaries fluid_delta_pos m p m2 p2
        hh hm2 hp2 hd
  · intro m p c hm hp hc
    rw [compute_ff_slice h fluids boundaries fluid_delta_pos ff0 fb0 bb0 m p hm hp]
      at hc
    exact ffMatchesOf_sound h fluids boundaries fluid_delta_pos m p c hc
  · intro m p c hm hp hc
    rw [compute_fb_slice h fluids boundaries fluid_delta_pos ff0 fb0 bb0 m p hm hp]
      at hc
    exact fbMatchesOf_sound h fluids boundaries fluid_delta_pos m p c hc
  · intro m p c hm hp hc
    rw [compute_bb_slice h fluids boundaries fluid_delta_pos ff0 fb0 bb0 m p hm hp]
      at hc
    exact bbMatchesOf_sound h fluids boundaries fluid_delta_pos m p c hc

theorem C1_neighbor_completeness_witness :
    (0 : ℚ) < 1 ∧
    ((⟨0, 0, 1, 0, 0, Vec2.zero⟩ : Contact) ∈
      ((compute_contacts 1 [f2ex] [b1ex] none [] [] []).ff.getD 0
        ParticlesContacts.new).particle_contacts 0 ↔
      distSq (fPos [f2ex] none 0 0) (fPos [f2ex] none 0 1) ≤ 1 * 1) :=
  ⟨by norm_num,
    (C1_neighbor_completeness 1 [f2ex] [b1ex] none [] [] [] (by norm_num)).1
      0 0 0 1 (by decide) (by decide) (by decide) (by decide)⟩

/-- C3: no contact with a boundary particle as i and a fluid particle as j
is ever recorded: the only lists owned by boundary particles are the
boundary-boundary lists, and every contact recorded there joins two boundary
particles (first conjunct); and every boundary particle within distance h of
a fluid particle is recorded exactly as a fluid-as-i / boundary-as-j contact
in that fluid's fluid-boundary list (second conjunct). -/
theorem C3_one_sidedness (h : ℚ) (fluids : List Fluid)
    (boundaries : List Boundary) (fluid_delta_pos : Option (List (List Vec2)))
    (ff0 fb0 bb0 : List ParticlesContacts) (hh : 0 < h) :
    (∀ m p c, m < boundaries.length → p < numPB boundaries m →
      c ∈ ((compute_contacts h fluids boundaries fluid_delta_pos ff0 fb0 bb0).bb.getD m
          ParticlesContacts.new).particle_contacts p →
      ∃ m2 p2, m2 < boundaries.length ∧ p2 < numPB boundaries m2 ∧
        c = ⟨p, m, p2, m2, 0, Vec2.zero⟩ ∧
        distSq (bPos boundaries m p) (bPos boundaries m2 p2) ≤ h * h) ∧
    (∀ mf pf mb pb, mf < fluids.length → pf < numPF fluids mf →
      mb < boundaries.length → pb < numPB boundaries mb →
      distSq (fPos fluids fluid_delta_pos mf pf) (bPos boundaries mb pb) ≤ h * h →
      (⟨pf, mf, pb, mb, 0, Vec2.zero⟩ : Contact) ∈
        ((compute_contacts h fluids boundaries fluid_delta_pos ff0 fb0 bb0).fb.getD mf
          ParticlesContacts.new).particle_contacts pf) := by
  constructor
  · intro m p c hm hp hc
    rw [compute_bb_slice h fluids boundaries fluid_delta_pos ff0 fb0 bb0 m p hm hp]
      at hc
    exact bbMatchesOf_sound h fluids boundaries fluid_delta_pos m p c hc
  · intro mf pf mb pb hmf hpf hmb hpb hd
    rw [compute_fb_slice h fluids boundaries fluid_delta_pos ff0 fb0 bb0 mf pf
      hmf hpf]
    exact fbMatchesOf_complete h fluids boundaries fluid_delta_pos mf pf mb pb
      hh hmb hpb hd

attribute [local semireducible] Rat.mul Rat.add Rat.sub Rat.inv in
theorem C3_one_sidedness_witness :
    (0 : ℚ) < 1 ∧
    distSq (fPos [f2ex] none 0 0) (bPos [b1ex] 0 0) ≤ 1 * 1 ∧
    (⟨0, 0, 0, 0, 0, Vec2.zero⟩ : Contact) ∈
      ((compute_contacts 1 [f2ex] [b1ex] none [] [] []).fb.getD 0
        ParticlesContacts.new).particle_contacts 0 :=
  ⟨by norm_num, by decide,
    (C3_one_sidedness 1 [f2ex] [b1ex] none [] [] [] (by norm_num)).2
      0 0 0 0 (by decide) (by decide) (by decide) (by decide) (by decide)⟩

/-- C2: after any call to compute_contacts, in every produced list
contact_ranges.length equals the owning model's particle count, every
particle's range is a contiguous in-bounds half-open interval of the flat
contacts array, ranges of distinct particles do not overlap, and the length
of contact_ranges[i] equals the number of contacts recorded for particle i
during that call (the contacts appended past the initial contents whose i
field is that particle). -/
theorem C2_range_partition (h : ℚ) (fluids : List Fluid)
    (boundaries : List Boundary) (fluid_delta_pos : Option (List (List Vec2)))
    (ff0 fb0 bb0 : List ParticlesContacts) :
    ((compute_contacts h fluids boundaries fluid_delta_pos ff0 fb0 bb0).ff.length =
        fluids.length ∧
      (compute_contacts h fluids boundaries fluid_delta_pos ff0 fb0 bb0).fb.length =
        fluids.length ∧
      (compute_contacts h fluids boundaries fluid_delta_pos ff0 fb0 bb0).bb.length =
        boundaries.length) ∧
    (∀ m, m < fluids.length →
      ((compute_contacts h fluids boundaries fluid_delta_pos ff0 fb0 bb0).ff.getD m
        ParticlesContacts.new).contact_ranges.length = numPF fluids m) ∧
    (∀ m, m < fluids.length →
      ((compute_contacts h fluids boundaries fluid_delta_pos ff0 fb0 bb0).fb.getD m
        ParticlesContacts.new).contact_ranges.length = numPF fluids m) ∧
    (∀ m, m < boundaries.length →
      ((compute_contacts h fluids boundaries fluid_delta_pos ff0 fb0 bb0).bb.getD m
        ParticlesContacts.new).contact_ranges.length = numPB boundaries m) ∧
    (∀ m p, m < fluids.length → p < numPF fluids m →
      (((compute_contacts h fluids boundaries fluid_delta_pos ff0 fb0 bb0).ff.getD m
          ParticlesContacts.new).contact_ranges.getD p (0, 0)).1 ≤
        (((compute_contacts h fluids boundaries fluid_delta_pos ff0 fb0 bb0).ff.getD m
          ParticlesContacts.new).contact_ranges.getD p (0, 0)).2 ∧
      (((compute_contacts h fluids boundaries fluid_delta_pos ff0 fb0 bb0).ff.getD m
          ParticlesContacts.new).contact_ranges.getD p (0, 0)).2 ≤
        ((compute_contacts h fluids boundaries fluid_delta_pos ff0 fb0 bb0).ff.getD m
          ParticlesContacts.new).contacts.length ∧
      (((compute_contacts h fluids boundaries fluid_delta_pos ff0 fb0 bb0).ff.getD m
          ParticlesContacts.new).contact_ranges.getD p (0, 0)).2 -
        (((compute_contacts h fluids boundaries fluid_delta_pos ff0 fb0 bb0).ff.getD m
          ParticlesContacts.new).contact_ranges.getD p (0, 0)).1 =
        ((((compute_contacts h fluids boundaries fluid_delta_pos ff0 fb0
              bb0).ff.getD m ParticlesContacts.new).contacts.drop
            ((initListsOf fluids boundaries ff0 fb0 bb0).ff.getD m
              ParticlesContacts.new).contacts.length).filter
          (fun c => c.i = p)).length) ∧
    (∀ m p, m < fluids.length → p < numPF fluids m →
      (((compute_contacts h fluids boundaries fluid_delta_pos ff0 fb0 bb0).fb.getD m
          ParticlesContacts.new).contact_ranges.getD p (0, 0)).1 ≤
        (((compute_contacts h fluids boundaries fluid_delta_pos ff0 fb0 bb0).fb.getD m
          ParticlesContacts.new).contact_ranges.getD p (0, 0)).2 ∧
      (((compute_contacts h fluids boundaries fluid_delta_pos ff0 fb0 bb0).fb.getD m
          ParticlesContacts.new).contact_ranges.getD p (0, 0)).2 ≤
        ((compute_contacts h fluids boundaries fluid_delta_pos ff0 fb0 bb0).fb.getD m
          ParticlesContacts.new).contacts.length ∧
      (((compute_contacts h fluids boundaries fluid_delta_pos ff0 fb0 bb0).fb.getD m
          ParticlesContacts.new).contact_ranges.getD p (0, 0)).2 -
        (((compute_contacts h fluids boundaries fluid_delta_pos ff0 fb0 bb0).fb.getD m
          ParticlesContacts.new).contact_ranges.getD p (0, 0)).1 =
        ((((compute_contacts h fluids boundaries fluid_delta_pos ff0 fb0
              bb0).fb.getD m ParticlesContacts.new).contacts.drop
            ((initListsOf fluids boundaries ff0 fb0 bb0).fb.getD m
              ParticlesContacts.new).contacts.length).filter
          (fun c => c.i = p)).length) ∧
    (∀ m p, m < boundaries.length → p < numPB boundaries m →
      (((compute_contacts h fluids boundaries fluid_delta_pos ff0 fb0 bb0).bb.getD m
          ParticlesContacts.new).contact_ranges.getD p (0, 0)).1 ≤
        (((compute_contacts h fluids boundaries fluid_delta_pos ff0 fb0 bb0).bb.getD m
          ParticlesContacts.new).contact_ranges.getD p (0, 0)).2 ∧
      (((compute_contacts h fluids boundaries fluid_delta_pos ff0 fb0 bb0).bb.getD m
          ParticlesContacts.new).contact_ranges.getD p (0, 0)).2 ≤
        ((compute_contacts h fluids boundaries fluid_delta_pos ff0 fb0 bb0).bb.getD m
          ParticlesContacts.new).contacts.length ∧
      (((compute_contacts h fluids boundaries fluid_delta_pos ff0 fb0 bb0).bb.getD m
          ParticlesContacts.new).contact_ranges.getD p (0, 0)).2 -
        (((compute_contacts h fluids boundaries fluid_delta_pos ff0 fb0 bb0).bb.getD m
          ParticlesContacts.new).contact_ranges.getD p (0, 0)).1 =
        ((((compute_contacts h fluids boundaries fluid_delta_pos ff0 fb0
              bb0).bb.getD m ParticlesContacts.new).contacts.drop
            ((initListsOf fluids boundaries ff0 fb0 bb0).bb.getD m
              ParticlesContacts.new).contacts.length).filter
          (fun c => c.i = p)).length) ∧
    (∀ m p q, m < fluids.length → p < numPF fluids m → q < numPF fluids m →
      p ≠ q →
      (((compute_contacts h fluids boundaries fluid_delta_pos ff0 fb0 bb0).ff.getD m
          ParticlesContacts.new).contact_ranges.getD p (0, 0)).2 ≤
        (((compute_contacts h fluids boundaries fluid_delta_pos ff0 fb0 bb0).ff.getD m
          ParticlesContacts.new).contact_ranges.getD q (0, 0)).1 ∨
      (((compute_contacts h fluids boundaries fluid_delta_pos ff0 fb0 bb0).ff.getD m
          ParticlesContacts.new).contact_ranges.getD q (0, 0)).2 ≤
        (((compute_contacts h fluids boundaries fluid_delta_pos ff0 fb0 bb0).ff.getD m
          ParticlesContacts.new).contact_ranges.getD p (0, 0)).1) ∧
    (∀ m p q, m < fluids.length → p < numPF fluids m → q < numPF fluids m →
      p ≠ q →
      (((compute_contacts h fluids boundaries fluid_delta_pos ff0 fb0 bb0).fb.getD m
          ParticlesContacts.new).contact_ranges.getD p (0, 0)).2 ≤
        (((compute_contacts h fluids boundaries fluid_delta_pos ff0 fb0 bb0).fb.getD m
          ParticlesContacts.new).contact_ranges.getD q (0, 0)).1 ∨
      (((compute_contacts h fluids boundaries fluid_delta_pos ff0 fb0 bb0).fb.getD m
          ParticlesContacts.new).contact_ranges.getD q (0, 0)).2 ≤
        (((compute_contacts h fluids boundaries fluid_delta_pos ff0 fb0 bb0).fb.getD m
          ParticlesContacts.new).contact_ranges.getD p (0, 0)).1) ∧
    (∀ m p q, m < boundaries.length → p < numPB boundaries m →
      q < numPB boundaries m → p ≠ q →
      (((compute_contacts h fluids boundaries fluid_delta_pos ff0 fb0 bb0).bb.getD m
          ParticlesContacts.new).contact_ranges.getD p (0, 0)).2 ≤
        (((compute_contacts h fluids boundaries fluid_delta_pos ff0 fb0 bb0).bb.getD m
          ParticlesContacts.new).contact_ranges.getD q (0, 0)).1 ∨
      (((compute_contacts h fluids boundaries fluid_delta_pos ff0 fb0 bb0).bb.getD m
          ParticlesContacts.new).contact_ranges.getD q (0, 0)).2 ≤
        (((compute_contacts h fluids boundaries fluid_delta_pos ff0 fb0 bb0).bb.getD m
          ParticlesContacts.new).contact_ranges.getD p (0, 0)).1) := by
  have hok := compute_rangesOK h fluids boundaries fluid_delta_pos ff0 fb0 bb0
  refine ⟨⟨hok.1, hok.2.1, hok.2.2.1⟩, hok.2.2.2.1, hok.2.2.2.2.1,
    hok.2.2.2.2.2, ?_, ?_, ?_, ?_, ?_, ?_⟩
  · intro m p hm hp
    obtain ⟨s, hr, _, hend, _⟩ :=
      compute_ff_particle h fluids boundaries fluid_delta_pos ff0 fb0 bb0 m p hm hp
    rw [hr, compute_ff_count h fluids boundaries fluid_delta_pos ff0 fb0 bb0 m p
      hm hp]
    exact ⟨Nat.le_add_right s _, hend, by omega⟩
  · intro m p hm hp
    obtain ⟨s, hr, _, hend, _⟩ :=
      compute_fb_particle h fluids boundaries fluid_delta_pos ff0 fb0 bb0 m p hm hp
    rw [hr, compute_fb_count h fluids boundaries fluid_delta_pos ff0 fb0 bb0 m p
      hm hp]
    exact ⟨Nat.le_add_right s _, hend, by omega⟩
  · intro m p hm hp
    obtain ⟨s, hr, _, hend, _⟩ :=
      compute_bb_particle h fluids boundaries fluid_delta_pos ff0 fb0 bb0 m p hm hp
    rw [hr, compute_bb_count h fluids boundaries fluid_delta_pos ff0 fb0 bb0 m p
      hm hp]
    exact ⟨Nat.le_add_right s _, hend, by omega⟩
  · intro m p q hm hp hq hpq
    exact compute_ff_disjoint h fluids boundaries fluid_delta_pos ff0 fb0 bb0
      m p q hm hp hq hpq
  · intro m p q hm hp hq hpq
    exact compute_fb_disjoint h fluids boundaries fluid_delta_pos ff0 fb0 bb0
      m p q hm hp hq hpq
  · intro m p q hm hp hq hpq
    exact compute_bb_disjoint h fluids boundaries fluid_delta_pos ff0 fb0 bb0
      m p q hm hp hq hpq

attribute [local semireducible] Rat.mul Rat.add Rat.sub Rat.inv in
theorem C2_range_partition_witness :
    (0 : ℕ) < ([f2ex] : List Fluid).length ∧ (0 : ℕ) < numPF [f2ex] 0 ∧
    (1 : ℕ) < numPF [f2ex] 0 ∧ (0 : ℕ) ≠ 1 ∧
    ((((compute_contacts 1 [f2ex] [b1ex] none [] [] []).ff.getD 0
        ParticlesContacts.new).contact_ranges.getD 0 (0, 0)).2 ≤
      (((compute_contacts 1 [f2ex] [b1ex] none [] [] []).ff.getD 0
        ParticlesContacts.new).contact_ranges.getD 1 (0, 0)).1 ∨
      (((compute_contacts 1 [f2ex] [b1ex] none [] [] []).ff.getD 0
        ParticlesContacts.new).contact_ranges.getD 1 (0, 0)).2 ≤
      (((compute_contacts 1 [f2ex] [b1ex] none [] [] []).ff.getD 0
        ParticlesContacts.new).contact_ranges.getD 0 (0, 0)).1) :=
  ⟨by decide, by decide, by decide, by decide,
    (C2_range_partition 1 [f2ex] [b1ex] none [] [] []).2.2.2.2.2.2.2.1
      0 0 1 (by decide) (by decide) (by decide) (by decide)⟩

attribute [local semireducible] Rat.mul Rat.add Rat.sub Rat.inv in
theorem C4_counterexample :
    ((compute_contacts 1 [f1ex] [] none res1ex.ff res1ex.fb res1ex.bb).ff.getD 0
        ParticlesContacts.new).contacts =
      [⟨0, 0, 0, 0, 0, Vec2.zero⟩, ⟨0, 0, 0, 0, 0, Vec2.zero⟩] ∧
    ((compute_contacts 1 [f1ex] [] none res1ex.ff res1ex.fb res1ex.bb).ff.getD 0
        ParticlesContacts.new).particle_contacts 0 =
      [⟨0, 0, 0, 0, 0, Vec2.zero⟩] := by
  constructor
  · decide
  · decide

/-- C4 amended: after any call (including later calls reusing the same
output vectors), each particle's recorded range delimits exactly the
contacts detected for it during that call, and every recorded range lies
past the contents the lists held after the resize phase; but the flat
contacts array is those initial contents followed by this call's contacts —
contact data from a previous detection pass is NOT cleared from the flat
array (compute_contacts never truncates the contacts vector). -/
theorem C4_transient_amended (h : ℚ) (fluids : List Fluid)
    (boundaries : List Boundary) (fluid_delta_pos : Option (List (List Vec2)))
    (ff0 fb0 bb0 : List ParticlesContacts) :
    (∀ m, m < fluids.length →
      ∃ nc, ((compute_contacts h fluids boundaries fluid_delta_pos ff0 fb0
          bb0).ff.getD m ParticlesContacts.new).contacts =
        ((initListsOf fluids boundaries ff0 fb0 bb0).ff.getD m
          ParticlesContacts.new).contacts ++ nc) ∧
    (∀ m, m < fluids.length →
      ∃ nc, ((compute_contacts h fluids boundaries fluid_delta_pos ff0 fb0
          bb0).fb.getD m ParticlesContacts.new).contacts =
        ((initListsOf fluids boundaries ff0 fb0 bb0).fb.getD m
          ParticlesContacts.new).contacts ++ nc) ∧
    (∀ m, m < boundaries.length →
      ∃ nc, ((compute_contacts h fluids boundaries fluid_delta_pos ff0 fb0
          bb0).bb.getD m ParticlesContacts.new).contacts =
        ((initListsOf fluids boundaries ff0 fb0 bb0).bb.getD m
          ParticlesContacts.new).contacts ++ nc) ∧
    (∀ m p, m < fluids.length → p < numPF fluids m →
      ((initListsOf fluids boundaries ff0 fb0 bb0).ff.getD m
          ParticlesContacts.new).contacts.length ≤
        (((compute_contacts h fluids boundaries fluid_delta_pos ff0 fb0
            bb0).ff.getD m ParticlesContacts.new).contact_ranges.getD p (0, 0)).1 ∧
      ((compute_contacts h fluids boundaries fluid_delta_pos ff0 fb0
          bb0).ff.getD m ParticlesContacts.new).particle_contacts p =
        ffMatchesOf h fluids boundaries fluid_delta_pos m p) ∧
    (∀ m p, m < fluids.length → p < numPF fluids m →
      ((initListsOf fluids boundaries ff0 fb0 bb0).fb.getD m
          ParticlesContacts.new).contacts.length ≤
        (((compute_contacts h fluids boundaries fluid_delta_pos ff0 fb0
            bb0).fb.getD m ParticlesContacts.new).contact_ranges.getD p (0, 0)).1 ∧
      ((compute_contacts h fluids boundaries fluid_delta_pos ff0 fb0
          bb0).fb.getD m ParticlesContacts.new).particle_contacts p =
        fbMatchesOf h fluids boundaries fluid_delta_pos m p) ∧
    (∀ m p, m < boundaries.length → p < numPB boundaries m →
      ((initListsOf fluids boundaries ff0 fb0 bb0).bb.getD m
          ParticlesContacts.new).contacts.length ≤
        (((compute_contacts h fluids boundaries fluid_delta_pos ff0 fb0
            bb0).bb.getD m ParticlesContacts.new).contact_ranges.getD p (0, 0)).1 ∧
      ((compute_contacts h fluids boundaries fluid_delta_pos ff0 fb0
          bb0).bb.getD m ParticlesContacts.new).particle_contacts p =
        bbMatchesOf h fluids boundaries fluid_delta_pos m p) := by
  refine ⟨?_, ?_, ?_, ?_, ?_, ?_⟩
  · intro m hm
    exact ⟨_, compute_ff_contacts h fluids boundaries fluid_delta_pos ff0 fb0
      bb0 m hm⟩
  · intro m hm
    exact ⟨_, compute_fb_contacts h fluids boundaries fluid_delta_pos ff0 fb0
      bb0 m hm⟩
  · intro m hm
    exact ⟨_, compute_bb_contacts h fluids boundaries fluid_delta_pos ff0 fb0
      bb0 m hm⟩
  · intro m p hm hp
    obtain ⟨s, hr, hstart, _, _⟩ :=
      compute_ff_particle h fluids boundaries fluid_delta_pos ff0 fb0 bb0 m p hm hp
    refine ⟨by rw [hr]; exact hstart, ?_⟩
    exact compute_ff_slice h fluids boundaries fluid_delta_pos ff0 fb0 bb0 m p hm hp
  · intro m p hm hp
    obtain ⟨s, hr, hstart, _, _⟩ :=
      compute_fb_particle h fluids boundaries fluid_delta_pos ff0 fb0 bb0 m p hm hp
    refine ⟨by rw [hr]; exact hstart, ?_⟩
    exact compute_fb_slice h fluids boundaries fluid_delta_pos ff0 fb0 bb0 m p hm hp
  · intro m p hm hp
    obtain ⟨s, hr, hstart, _, _⟩ :=
      compute_bb_particle h fluids boundaries fluid_delta_pos ff0 fb0 bb0 m p hm hp
    refine ⟨by rw [hr]; exact hstart, ?_⟩
    exact compute_bb_slice h fluids boundaries fluid_delta_pos ff0 fb0 bb0 m p hm hp

attribute [local semireducible] Rat.mul Rat.add Rat.sub Rat.inv in
theorem C4_transient_amended_witness :
    (0 : ℕ) < ([f1ex] : List Fluid).length ∧ (0 : ℕ) < numPF [f1ex] 0 ∧
    (((initListsOf [f1ex] [] res1ex.ff res1ex.fb res1ex.bb).ff.getD 0
        ParticlesContacts.new).contacts.length ≤
      (((compute_contacts 1 [f1ex] [] none res1ex.ff res1ex.fb
          res1ex.bb).ff.getD 0 ParticlesContacts.new).contact_ranges.getD 0
        (0, 0)).1 ∧
      ((compute_contacts 1 [f1ex] [] none res1ex.ff res1ex.fb
          res1ex.bb).ff.getD 0 ParticlesContacts.new).particle_contacts 0 =
        ffMatchesOf 1 [f1ex] [] none 0 0) :=
  ⟨by decide, by decide,
    (C4_transient_amended 1 [f1ex] [] none res1ex.ff res1ex.fb
      res1ex.bb).2.2.2.1 0 0 (by decide) (by decide)⟩

attribute [local semireducible] Rat.mul Rat.add Rat.sub Rat.inv in
theorem C5_counterexample :
    ((compute_contacts 1 [f1ex] [] none [] [] []).ff.getD 0
        ParticlesContacts.new).contact_ranges.getD 0 (0, 0) = (0, 1) ∧
    ((compute_contacts 1 [f1ex] [] none [] [] []).ff.getD 0
        ParticlesContacts.new).particle_contacts 0 ≠ [] := by
  constructor
  · decide
  · decide

/-- C5 amended: for a fluid particle i with no OTHER particle (fluid or
boundary, any model) within distance h, after compute_contacts its
fluid-boundary range is empty, and its fluid-fluid range is not empty but
holds exactly the self-pair contact (i, i) — the builder always records the
self-pair, so only the ranges toward genuinely other particles are empty. -/
theorem C5_lone_particle_amended (h : ℚ) (fluids : List Fluid)
    (boundaries : List Boundary) (fluid_delta_pos : Option (List (List Vec2)))
    (ff0 fb0 bb0 : List ParticlesContacts) (m p : ℕ)
    (hm : m < fluids.length) (hp : p < numPF fluids m)
    (hnf : ∀ m2 p2, m2 < fluids.length → p2 < numPF fluids m2 →
      ¬(m2 = m ∧ p2 = p) →
      ¬ distSq (fPos fluids fluid_delta_pos m p)
          (fPos fluids fluid_delta_pos m2 p2) ≤ h * h)
    (hnb : ∀ m2 p2, m2 < boundaries.length → p2 < numPB boundaries m2 →
      ¬ distSq (fPos fluids fluid_delta_pos m p) (bPos boundaries m2 p2) ≤ h * h) :
    ((compute_contacts h fluids boundaries fluid_delta_pos ff0 fb0 bb0).fb.getD m
        ParticlesContacts.new).particle_contacts p = [] ∧
    ((compute_contacts h fluids boundaries fluid_delta_pos ff0 fb0 bb0).ff.getD m
        ParticlesContacts.new).particle_contacts p =
      [⟨p, m, p, m, 0, Vec2.zero⟩] := by
  constructor
  · rw [compute_fb_slice h fluids boundaries fluid_delta_pos ff0 fb0 bb0 m p hm hp,
      fbMatchesOf, List.filterMap_eq_nil_iff]
    intro pay hpay
    cases hF : fbDecide h fluids boundaries fluid_delta_pos m p pay with
    | none => rfl
    | some c =>
      obtain ⟨m2, p2, rfl, -, hd⟩ := (fbDecide_some _ _ _ _ _ _ _ _).1 hF
      rw [mem_nbhPayloads] at hpay
      obtain ⟨pos, o, _, he, _⟩ := hpay
      obtain ⟨hm2, hp2, -⟩ :=
        payload_entry_boundary h fluids boundaries fluid_delta_pos m2 p2 pos he
      exact absurd hd (hnb m2 p2 hm2 hp2)
  · rw [compute_ff_slice h fluids boundaries fluid_delta_pos ff0 fb0 bb0 m p hm hp,
      ffMatchesOf]
    apply filterMap_eq_single _ ((m, p, false) : Payload)
      (⟨p, m, p, m, 0, Vec2.zero⟩ : Contact)
    · exact nbhPayloads_nodup _ _ _
        (buildGrid_payloads_nodup h fluids boundaries fluid_delta_pos)
    · rw [mem_nbhPayloads]
      refine ⟨fPos fluids fluid_delta_pos m p, (0, 0), by decide, ?_, ?_⟩
      · rw [mem_buildGrid_entries]
        exact Or.inl ⟨m, p, hm, hp, rfl⟩
      · rw [buildGrid_cell_size]
        show cellOf h (fPos fluids fluid_delta_pos m p) =
          ((cellOf h (fPos fluids fluid_delta_pos m p)).1 + 0,
           (cellOf h (fPos fluids fluid_delta_pos m p)).2 + 0)
        simp
    · exact (ffDecide_some _ _ _ _ _ _ _).2
        ⟨m, p, rfl, rfl, by rw [distSq_self]; exact mul_self_nonneg h⟩
    · intro pay hpay hne
      cases hF : ffDecide h fluids fluid_delta_pos m p pay with
      | none => rfl
      | some c =>
        obtain ⟨m2, p2, rfl, -, hd⟩ := (ffDecide_some _ _ _ _ _ _ _).1 hF
        rw [mem_nbhPayloads] at hpay
        obtain ⟨pos, o, _, he, _⟩ := hpay
        obtain ⟨hm2, hp2, -⟩ :=
          payload_entry_fluid h fluids boundaries fluid_delta_pos m2 p2 pos he
        refine absurd hd (hnf m2 p2 hm2 hp2 ?_)
        rintro ⟨rfl, rfl⟩
        exact hne rfl

theorem C5_lone_particle_amended_witness :
    (0 : ℕ) < ([f1ex] : List Fluid).length ∧ (0 : ℕ) < numPF [f1ex] 0 ∧
    ((compute_contacts 1 [f1ex] [] none [] [] []).fb.getD 0
        ParticlesContacts.new).particle_contacts 0 = [] ∧
    ((compute_contacts 1 [f1ex] [] none [] [] []).ff.getD 0
        ParticlesContacts.new).particle_contacts 0 =
      [⟨0, 0, 0, 0, 0, Vec2.zero⟩] := by
  refine ⟨by decide, by decide, ?_⟩
  have hres := C5_lone_particle_amended 1 [f1ex] [] none [] [] [] 0 0
    (by decide) (by decide)
    (by
      intro m2 p2 h1 h2 hne
      have hm2 : m2 = 0 := by
        have hl : ([f1ex] : List Fluid).length = 1 := rfl
        omega
      subst hm2
      have hp2 : p2 = 0 := by
        have hn : numPF [f1ex] 0 = 1 := rfl
        omega
      subst hp2
      exact absurd ⟨rfl, rfl⟩ hne)
    (fun m2 p2 h1 _ => absurd h1 (Nat.not_lt_zero m2))
  exact ⟨hres.1, hres.2⟩

/-- A hand-built contact list for the two-particle fluid f2ex: one
fluid-fluid contact (0, 1) owned by particle 0, an empty range for
particle 1. -/
def pc_ex : ParticlesContacts :=
  ⟨[⟨0, 0, 1, 0, 0, ⟨1, 0⟩⟩], [(0, 1), (1, 1)]⟩

/-- C7: ArtificialViscosity::solve adds to accelerations[i] exactly
viscosity_coefficient times the sum, over i's fluid-fluid contacts c with
c.i_model = c.j_model and strictly negative approach rate
vr = (p_i - p_j).(v_i - v_j), of
gradient * (speed_of_sound * alpha * mu - beta * mu^2)
* (volumes[j] * density0 / ((densities[i] + densities[j]) / 2)) with
mu = kernel_radius * vr / (dist^2 + 0.01 * kernel_radius^2); contacts with
vr >= 0 or differing models contribute nothing. -/
theorem C7_viscosity_formula (av : ArtificialViscosity)
    (dt inv_dt kernel_radius : ℚ) (fluid_fluid_contacts : ParticlesContacts)
    (fluid : Fluid) (densities : List ℚ) (i : ℕ)
    (hi : i < fluid.accelerations.length) :
    (av.solve dt inv_dt kernel_radius fluid_fluid_contacts fluid
        densities).accelerations.getD i Vec2.zero =
      fluid.accelerations.getD i Vec2.zero +
        Vec2.smul av.viscosity_coefficient
          (((fluid_fluid_contacts.particle_contacts i).filter
              (fun c => c.i_model = c.j_model ∧
                approachRate fluid.positions fluid.velocities c < 0)).map
            (viscTerm av kernel_radius fluid.positions fluid.velocities
              fluid.volumes fluid.density0 densities)).sum := by
  rw [solve_accelerations_getD av dt inv_dt kernel_radius fluid_fluid_contacts
    fluid densities i hi]
  have hsum : (fluid_fluid_contacts.particle_contacts i).foldl
      (fun acc c => acc + av.contactTerm kernel_radius fluid.positions
        fluid.velocities fluid.volumes fluid.density0 densities c) Vec2.zero =
      (((fluid_fluid_contacts.particle_contacts i).filter
          (fun c => c.i_model = c.j_model ∧
            approachRate fluid.positions fluid.velocities c < 0)).map
        (viscTerm av kernel_radius fluid.positions fluid.velocities
          fluid.volumes fluid.density0 densities)).sum := by
    rw [foldl_add_eq_sum (fun c => av.contactTerm kernel_radius fluid.positions
      fluid.velocities fluid.volumes fluid.density0 densities c)
      (fluid_fluid_contacts.particle_contacts i) Vec2.zero]
    have hz : Vec2.zero +
        ((fluid_fluid_contacts.particle_contacts i).map
          (fun c => av.contactTerm kernel_radius fluid.positions
            fluid.velocities fluid.volumes fluid.density0 densities c)).sum =
        ((fluid_fluid_contacts.particle_contacts i).map
          (fun c => av.contactTerm kernel_radius fluid.positions
            fluid.velocities fluid.volumes fluid.density0 densities c)).sum :=
      Vec2.zero_add _
    rw [hz,
      List.map_congr_left (fun c _ => contactTerm_eq_ite av kernel_radius
        fluid.positions fluid.velocities fluid.volumes fluid.density0
        densities c),
      sum_map_ite_eq_filter]
  rw [hsum]

theorem C7_viscosity_formula_witness :
    (0 : ℕ) < f2ex.accelerations.length ∧
    ((ArtificialViscosity.new 1).solve 0 0 1 pc_ex f2ex
        [1, 1]).accelerations.getD 0 Vec2.zero =
      f2ex.accelerations.getD 0 Vec2.zero +
        Vec2.smul (ArtificialViscosity.new 1).viscosity_coefficient
          (((pc_ex.particle_contacts 0).filter
              (fun c => c.i_model = c.j_model ∧
                approachRate f2ex.positions f2ex.velocities c < 0)).map
            (viscTerm (ArtificialViscosity.new 1) 1 f2ex.positions
              f2ex.velocities f2ex.volumes f2ex.density0 [1, 1])).sum :=
  ⟨by decide, C7_viscosity_formula (ArtificialViscosity.new 1) 0 0 1 pc_ex f2ex
    [1, 1] 0 (by decide)⟩

/-- C8: the embedding of ArtificialViscosity::solve returns the fluid with
positions, velocities, volumes and density0 unchanged, and an accelerations
array of unchanged length: only the accelerations entries are written. The
contact list and the densities slice are taken immutably by the embedding
(solve returns only the fluid), so they are unchanged by construction. -/
theorem C8_frame (av : ArtificialViscosity) (dt inv_dt kernel_radius : ℚ)
    (fluid_fluid_contacts : ParticlesContacts) (fluid : Fluid)
    (densities : List ℚ) :
    (av.solve dt inv_dt kernel_radius fluid_fluid_contacts fluid
        densities).positions = fluid.positions ∧
    (av.solve dt inv_dt kernel_radius fluid_fluid_contacts fluid
        densities).velocities = fluid.velocities ∧
    (av.solve dt inv_dt kernel_radius fluid_fluid_contacts fluid
        densities).volumes = fluid.volumes ∧
    (av.solve dt inv_dt kernel_radius fluid_fluid_contacts fluid
        densities).density0 = fluid.density0 ∧
    (av.solve dt inv_dt kernel_radius fluid_fluid_contacts fluid
        densities).accelerations.length = fluid.accelerations.length := by
  refine ⟨rfl, rfl, rfl, rfl, ?_⟩
  rw [ArtificialViscosity.solve]
  simp
